import Mathlib

/-!
Verification of the RefineCoder requirement-to-code pipeline
(`src/agent/requirement_codegen/`): the analyzer, corrector and writer
response parsers, the shared function-signature model, the layered code
extraction chain, and the orchestrator loop.  Python strings are modelled
as Lean `String` / `List Char`; the regular expressions used by the source
are hand-translated into deterministic scanners (all the patterns involved
are free of genuine backtracking ambiguity); `None`-able values become
`Option`; Python exceptions in parsing code become `Option` results.
-/

namespace RefineCoder

/-! ## Python-style string helpers -/

/-- Python whitespace as used by `str.strip` and the regex class `\s`
(ASCII subset: space, tab, newline, carriage return, form feed,
vertical tab). -/
def isPyWs (c : Char) : Bool :=
  c = ' ' || c = '\t' || c = '\n' || c = '\r' || c = '\x0c' || c = '\x0b'

/-- The regex class `\w` (ASCII subset: letters, digits, underscore). -/
def isWordCh (c : Char) : Bool :=
  c.isAlpha || c.isDigit || c = '_'

/-- `str.strip()` on a character list. -/
def pyStripL (cs : List Char) : List Char :=
  ((cs.dropWhile isPyWs).reverse.dropWhile isPyWs).reverse

/-- Python `str.strip()`. -/
def pyStrip (s : String) : String :=
  String.mk (pyStripL s.data)

/-- Python `str.lower()` (ASCII). -/
def pyLower (s : String) : String :=
  String.mk (s.data.map Char.toLower)

/-- Whether `needle` occurs at the start of `hay`. -/
def startsL (needle hay : List Char) : Bool :=
  decide (needle <+: hay)

/-- Whether `needle` occurs as a contiguous substring of `hay`
(Python `needle in hay`). -/
def containsSub (needle hay : List Char) : Bool :=
  decide (needle <:+: hay)

/-- Index of the first occurrence of `needle` in `hay`
(Python `hay.index(needle)` / `hay.find(needle)`). -/
def indexOfSub (needle : List Char) : List Char → Option Nat
  | [] => if needle = [] then some 0 else none
  | c :: rest =>
    if startsL needle (c :: rest) then some 0
    else (indexOfSub needle rest).map (· + 1)

/-- Python slice `cs[a:b]` for non-negative `a`, `b` (empty when `b ≤ a`). -/
def sliceL (cs : List Char) (a b : Nat) : List Char :=
  (cs.take b).drop a

/-- Python truthiness of an optional string (`None` and `""` are falsy). -/
def optStrTruthy : Option String → Bool
  | none => false
  | some s => s ≠ ""

/-- Python `a or b` on optional strings (`None`/`""` falsy). -/
def pyOrStr (a b : Option String) : Option String :=
  if optStrTruthy a then a else b

/-! ## Signature model

Embeds `_extract_function_signature` / `_split_params` (identical in
`corrector.py` and `code_writer.py`): the regex
`def\s+(\w+)\s*\(([^)]*)\)` searched left to right, then bracket-aware
parameter splitting. -/

/-- Attempt to match `def\s+(\w+)\s*\(([^)]*)\)` at the head of `cs`.
Returns the captured name, the raw parameter substring, and the total
length of the match.  All quantifiers in the pattern are over pairwise
disjoint character classes, so maximal munch is exact. -/
def defMatchAt (cs : List Char) : Option (String × List Char × Nat) :=
  match cs with
  | 'd' :: 'e' :: 'f' :: rest =>
    let ws := rest.takeWhile isPyWs
    if ws = [] then none else
    let rest1 := rest.drop ws.length
    let nm := rest1.takeWhile isWordCh
    if nm = [] then none else
    let rest2 := rest1.drop nm.length
    let ws2 := rest2.takeWhile isPyWs
    let rest3 := rest2.drop ws2.length
    match rest3 with
    | '(' :: rest4 =>
      let ps := rest4.takeWhile (fun c => c ≠ ')')
      match rest4.drop ps.length with
      | ')' :: _ =>
        some (String.mk nm, ps,
          3 + ws.length + nm.length + ws2.length + 1 + ps.length + 1)
      | _ => none
    | _ => none
  | _ => none

/-- Leftmost match of the signature regex: returns the match position,
the captured function name and the raw parameter substring. -/
def findDefL : List Char → Option (Nat × String × List Char)
  | [] => none
  | c :: rest =>
    match defMatchAt (c :: rest) with
    | some (nm, ps, _) => some (0, nm, ps)
    | none => (findDefL rest).map (fun r => (r.1 + 1, r.2.1, r.2.2))

/-- `_split_params`: split on top-level commas, tracking bracket depth
across `(`, `[`, `{` and their closers; each piece is stripped and empty
pieces are kept out by the caller loop.  `depth` is an integer because the
source lets it go negative. -/
def splitParamsGo (cs : List Char) (current : List Char) (depth : Int) :
    List (List Char) :=
  match cs with
  | [] => if (pyStripL current.reverse) ≠ [] then [current.reverse] else []
  | c :: rest =>
    if c = '(' || c = '[' || c = '\x7b' then
      splitParamsGo rest (c :: current) (depth + 1)
    else if c = ')' || c = ']' || c = '\x7d' then
      splitParamsGo rest (c :: current) (depth - 1)
    else if c = ',' ∧ depth = 0 then
      current.reverse :: splitParamsGo rest [] depth
    else
      splitParamsGo rest (c :: current) depth

/-- `_split_params` (the source appends `current.strip()` pieces; the
trailing piece is kept only if non-empty after stripping, while the
pieces preceding commas are appended stripped unconditionally). -/
def splitParams (cs : List Char) : List (List Char) :=
  (splitParamsGo cs [] 0).map pyStripL

/-- One parsed parameter: name and optional type annotation text.
`none` means no `:` was present; `some t` records the annotation
(possibly empty after stripping). -/
abbrev Param := String × Option String

/-- The per-parameter processing loop of `_extract_function_signature`:
strip, skip empties, split the first `:`, drop a default-value suffix. -/
def parseParam (p : List Char) : Option Param :=
  let p := pyStripL p
  if p = [] then none
  else if p.contains ':' then
    let nameCs := p.takeWhile (fun c => c ≠ ':')
    let typeCs := (p.drop nameCs.length).drop 1
    let typeStripped := pyStripL typeCs
    let typeFinal :=
      if typeStripped.contains '=' then
        pyStripL (typeStripped.takeWhile (fun c => c ≠ '='))
      else typeStripped
    some (String.mk (pyStripL nameCs), some (String.mk typeFinal))
  else
    some (String.mk (pyStripL (p.takeWhile (fun c => c ≠ '='))), none)

/-- Parse the raw parameter substring captured by the signature regex:
`match.group(2).strip()`, empty-check, split, per-parameter loop. -/
def parseParams (ps : List Char) : List Param :=
  let stripped := pyStripL ps
  if stripped = [] then []
  else (splitParams stripped).filterMap parseParam

/-- `_extract_function_signature`: leftmost `def` header in the text,
with its parsed parameter list.  `none` models the `(None, [])` result. -/
def extractSig (text : String) : Option (String × List Param) :=
  (findDefL text.data).map (fun r => (r.2.1, parseParams r.2.2))

/-- Whitespace normalization used by both validators:
`type.replace(" ", "")` (spaces only). -/
def normType (t : String) : String :=
  String.mk (t.data.filter (fun c => c ≠ ' '))

/-! ## Signature validators -/

/-- The parameter-type loop shared by both validators: the first position
`i` (0-based) where both sides declare a truthy type and the
space-normalized type strings differ.  Returns that position with both
raw type texts. -/
def firstTypeMismatch : List Param → List Param → Nat →
    Option (Nat × String × String)
  | (_, rt) :: rs, (_, ct) :: cs, i =>
    if optStrTruthy rt ∧ optStrTruthy ct ∧
        normType (rt.getD ("")) ≠ normType (ct.getD ("")) then
      some (i, rt.getD (""), ct.getD (""))
    else firstTypeMismatch rs cs (i + 1)
  | _, _, _ => none

/-- `RequirementCorrector._validate_signature_preserved`: names must
agree (with `candidate` as a wildcard on either side), parameter counts
must agree, and every pair of declared types must agree after space
removal.  Either side failing to parse passes. -/
def correctorValidateSig (original improved : String) : Bool × String :=
  match extractSig original, extractSig improved with
  | none, _ => (true, "")
  | some _, none => (true, "")
  | some (origName, origParams), some (imprName, imprParams) =>
    if origName ≠ imprName ∧ origName ≠ "candidate" ∧
        imprName ≠ "candidate" then
      (false, "Function name changed from \x27" ++ origName ++
        "\x27 to \x27" ++ imprName ++ "\x27")
    else if origParams.length ≠ imprParams.length then
      (false, "Parameter count changed from " ++
        toString origParams.length ++ " to " ++
        toString imprParams.length)
    else
      match firstTypeMismatch origParams imprParams 0 with
      | some (i, ot, it) =>
        (false, "Parameter " ++ toString (i + 1) ++
          " type changed from \x27" ++ ot ++ "\x27 to \x27" ++ it ++ "\x27")
      | none => (true, "")

/-- `RequirementCodeWriter._validate_signature_preserved`: parameter
counts must agree and every pair of declared types must agree after
space removal.  No name comparison is performed.  Either side failing
to parse passes. -/
def writerValidateSig (requirement code : String) : Bool × String :=
  match extractSig requirement, extractSig code with
  | none, _ => (true, "")
  | some _, none => (true, "")
  | some (_, reqParams), some (_, codeParams) =>
    if reqParams.length ≠ codeParams.length then
      (false, "Parameter count mismatch: requirement has " ++
        toString reqParams.length ++ ", code has " ++
        toString codeParams.length)
    else
      match firstTypeMismatch reqParams codeParams 0 with
      | some (i, rt, ct) =>
        (false, "Parameter " ++ toString (i + 1) ++
          " type mismatch: requirement has \x27" ++ rt ++
          "\x27, code has \x27" ++ ct ++ "\x27")
      | none => (true, "")

/-! ## Writer auto-repair (`_fix_signature_in_code`) -/

/-- Match `\)\s*->\s*([^:]+):` at the head of `cs` and return the
stripped capture (the return type text).  The leading `\s*` of the
capture region only shifts whitespace into or out of the group, which
the subsequent `strip()` erases, so the capture is computed directly as
the text up to the first `:` after the arrow, stripped. -/
def retTypeAt (cs : List Char) : Option String :=
  match cs with
  | ')' :: rest =>
    let ws := rest.takeWhile isPyWs
    match rest.drop ws.length with
    | '-' :: '>' :: tail =>
      let pre := tail.takeWhile (fun c => c ≠ ':')
      if pre = [] then none
      else if pre.length = tail.length then none
      else some (String.mk (pyStripL pre))
    | _ => none
  | _ => none

/-- `re.search(r'\)\s*->\s*([^:]+):', requirement)`: leftmost match. -/
def findRetType : List Char → Option String
  | [] => none
  | c :: rest =>
    match retTypeAt (c :: rest) with
    | some t => some t
    | none => findRetType rest

/-- Match the header-rewrite pattern
`def\s+<name>\s*\([^)]*\)(\s*->[^:]+)?:` at the head of `cs`, returning
the length of the match.  The optional arrow group is attempted first
(greedy); if it cannot complete, the colon must follow the closing
parenthesis immediately. -/
def defSubMatchLenAt (name : List Char) (cs : List Char) : Option Nat :=
  match cs with
  | 'd' :: 'e' :: 'f' :: rest =>
    let ws := rest.takeWhile isPyWs
    if ws = [] then none else
    let rest1 := rest.drop ws.length
    if startsL name rest1 then
      let rest2 := rest1.drop name.length
      let ws2 := rest2.takeWhile isPyWs
      match rest2.drop ws2.length with
      | '(' :: rest4 =>
        let ps := rest4.takeWhile (fun c => c ≠ ')')
        match rest4.drop ps.length with
        | ')' :: rest6 =>
          let baseLen := 3 + ws.length + name.length + ws2.length + 1 +
            ps.length + 1
          let ws3 := rest6.takeWhile isPyWs
          match rest6.drop ws3.length with
          | '-' :: '>' :: tail =>
            let pre := tail.takeWhile (fun c => c ≠ ':')
            if pre ≠ [] ∧ pre.length < tail.length then
              some (baseLen + ws3.length + 2 + pre.length + 1)
            else
              match rest6 with
              | ':' :: _ => some (baseLen + 1)
              | _ => none
          | _ =>
            match rest6 with
            | ':' :: _ => some (baseLen + 1)
            | _ => none
        | _ => none
      | _ => none
    else none
  | _ => none

/-- `re.sub(pattern, new_def, code, count=1)` for the header-rewrite
pattern: replace the leftmost match, leave the text unchanged when the
pattern does not occur. -/
def subFirstDef (name repl : List Char) : List Char → List Char
  | [] => []
  | c :: rest =>
    match defSubMatchLenAt name (c :: rest) with
    | some len => repl ++ (c :: rest).drop len
    | none => c :: subFirstDef name repl rest

/-- Match `\b<name>\s*\(` at the head of `cs` given the previous
character (if any); returns the match length.  The word boundary holds
when there is no previous character or it is not a word character
(`name` starts with a word character whenever it comes from the
signature regex). -/
def callMatchLenAt (name : List Char) (prev : Option Char)
    (cs : List Char) : Option Nat :=
  let boundary : Bool := match prev with
    | none => true
    | some p => ! isWordCh p
  if boundary && startsL name cs then
    let rest := cs.drop name.length
    let ws := rest.takeWhile isPyWs
    match rest.drop ws.length with
    | '(' :: _ => some (name.length + ws.length + 1)
    | _ => none
  else none

/-- `re.sub(r'\b<name>\s*\(', "<newName>(", code)`: global left-to-right
non-overlapping replacement of call sites.  A successful match has
length at least one, so the continuation drops from the tail; the fuel
argument (initially the text length) makes the recursion structural. -/
def renameCallsGo (name repl : List Char) :
    Nat → Option Char → List Char → List Char
  | 0, _, cs => cs
  | _ + 1, _, [] => []
  | fuel + 1, prev, c :: rest =>
    match callMatchLenAt name prev (c :: rest) with
    | some len =>
      repl ++ renameCallsGo name repl fuel (some '(') (rest.drop (len - 1))
    | none => c :: renameCallsGo name repl fuel (some c) rest

/-- The call-site rename performed when the requirement name differs
from the code name (and is not the `candidate` placeholder). -/
def renameCalls (name newName : List Char) (cs : List Char) : List Char :=
  renameCallsGo name (newName ++ ['(']) cs.length none cs

/-- The parameter list rebuilt by `_fix_signature_in_code`: the code
parameter name with the requirement type when truthy, else the code
type, else no annotation. -/
def fixedParamStr (rp cp : Param) : String :=
  match pyOrStr rp.2 cp.2 with
  | some t => if t ≠ "" then cp.1 ++ ": " ++ t else cp.1
  | none => cp.1

/-- The replacement header built by `_fix_signature_in_code`. -/
def mkNewDef (reqName : String) (reqParams codeParams : List Param)
    (requirement : String) : String :=
  let sep : String := ", "
  let newParams :=
    String.intercalate sep
      ((reqParams.zip codeParams).map (fun pc => fixedParamStr pc.1 pc.2))
  match findRetType requirement.data with
  | some rt =>
    if rt ≠ "" then
      "def " ++ reqName ++ "(" ++ newParams ++ ") -> " ++ rt ++ ":"
    else "def " ++ reqName ++ "(" ++ newParams ++ "):"
  | none => "def " ++ reqName ++ "(" ++ newParams ++ "):"

/-! ## JSON values and `json.loads`

A small recursive-descent JSON parser modelling the Python `json.loads`
calls made by the agents.  Numbers keep their raw token text (no agent
inspects numeric values beyond truthiness).  The parser is fuelled; the
wrapper supplies fuel exceeding the nesting depth of any input. -/

inductive Json where
  | jnull : Json
  | jbool (b : Bool) : Json
  | jnum (raw : String) : Json
  | jstr (s : String) : Json
  | jarr (xs : List Json) : Json
  | jobj (kvs : List (String × Json)) : Json
deriving Repr

/-- JSON whitespace. -/
def isJsonWs (c : Char) : Bool :=
  c = ' ' || c = '\t' || c = '\n' || c = '\r'

/-- Skip JSON whitespace. -/
def skipJWs (cs : List Char) : List Char :=
  cs.dropWhile isJsonWs

/-- Numeric value of a hexadecimal digit. -/
def hexVal (c : Char) : Nat :=
  if c.isDigit then c.toNat - 48
  else if 'a' ≤ c ∧ c ≤ 'f' then c.toNat - 87
  else if 'A' ≤ c ∧ c ≤ 'F' then c.toNat - 55
  else 0

/-- Whether a character is a hexadecimal digit. -/
def isHexDigitCh (c : Char) : Bool :=
  c.isDigit || ('a' ≤ c && c ≤ 'f') || ('A' ≤ c && c ≤ 'F')

/-- Parse the body of a JSON string (opening quote already consumed),
handling the standard escapes; raw control characters are rejected as
in strict-mode `json.loads`.  Surrogate code points from `\uXXXX` fall
back to the null character (no agent input depends on them). -/
def parseJStr : List Char → List Char → Option (String × List Char)
  | [], _ => none
  | '"' :: rest, acc => some (String.mk acc.reverse, rest)
  | '\\' :: rest, acc =>
    match rest with
    | '"' :: r => parseJStr r ('"' :: acc)
    | '\\' :: r => parseJStr r ('\\' :: acc)
    | '/' :: r => parseJStr r ('/' :: acc)
    | 'b' :: r => parseJStr r ('\x08' :: acc)
    | 'f' :: r => parseJStr r ('\x0c' :: acc)
    | 'n' :: r => parseJStr r ('\n' :: acc)
    | 'r' :: r => parseJStr r ('\r' :: acc)
    | 't' :: r => parseJStr r ('\t' :: acc)
    | 'u' :: a :: b :: c :: d :: r =>
      if isHexDigitCh a && isHexDigitCh b && isHexDigitCh c &&
          isHexDigitCh d then
        let v := ((hexVal a * 16 + hexVal b) * 16 + hexVal c) * 16 + hexVal d
        parseJStr r (Char.ofNat v :: acc)
      else none
    | _ => none
  | c :: rest, acc =>
    if c.toNat < 32 then none else parseJStr rest (c :: acc)

/-- Parse a JSON number token starting at `cs` (possibly signed),
returning the raw token text.  Follows the JSON grammar (no leading
zeros, optional fraction and exponent). -/
def parseJNum (cs : List Char) : Option (String × List Char) :=
  let (sign, cs1) :=
    match cs with
    | '-' :: r => (['-'], r)
    | _ => (([] : List Char), cs)
  let intRes : Option (List Char × List Char) :=
    match cs1 with
    | '0' :: r => some (['0'], r)
    | c :: r =>
      if c.isDigit ∧ c ≠ '0' then
        let ds := r.takeWhile Char.isDigit
        some (c :: ds, r.drop ds.length)
      else none
    | [] => none
  match intRes with
  | none => none
  | some (ipart, cs2) =>
    let (fpart, cs3) :=
      match cs2 with
      | '.' :: r =>
        let ds := r.takeWhile Char.isDigit
        if ds = [] then (([] : List Char), cs2)
        else ('.' :: ds, r.drop ds.length)
      | _ => (([] : List Char), cs2)
    if fpart = [] ∧ (match cs2 with | '.' :: _ => true | _ => false) = true then
      none
    else
      let expRes : Option (List Char × List Char) :=
        match cs3 with
        | e :: r =>
          if e = 'e' ∨ e = 'E' then
            let (es, r1) :=
              match r with
              | '+' :: r2 => (['+'], r2)
              | '-' :: r2 => (['-'], r2)
              | _ => (([] : List Char), r)
            let ds := r1.takeWhile Char.isDigit
            if ds = [] then none
            else some (e :: (es ++ ds), r1.drop ds.length)
          else some ([], cs3)
        | [] => some ([], cs3)
      match expRes with
      | none => none
      | some (epart, cs4) =>
        some (String.mk (sign ++ ipart ++ fpart ++ epart), cs4)

/-- The three parsing activities of the recursive-descent JSON parser:
a value, the body of an object (with the entries parsed so far), or the
body of an array.  A single fuel-indexed function replaces the mutual
recursion of a hand-written parser so that concrete runs reduce
definitionally. -/
inductive JTask where
  | jvalue : JTask
  | jobjBody (acc : List (String × Json)) : JTask
  | jarrBody (acc : List Json) : JTask

/-- Parse one JSON value / object body / array body; `cs` starts at a
non-whitespace position. -/
def parseJ : Nat → JTask → List Char → Option (Json × List Char)
  | 0, _, _ => none
  | fuel + 1, JTask.jvalue, cs =>
    match cs with
    | '\x7b' :: rest => parseJ fuel (JTask.jobjBody []) (skipJWs rest)
    | '[' :: rest => parseJ fuel (JTask.jarrBody []) (skipJWs rest)
    | '"' :: rest => (parseJStr rest []).map (fun p => (Json.jstr p.1, p.2))
    | 't' :: 'r' :: 'u' :: 'e' :: rest => some (Json.jbool true, rest)
    | 'f' :: 'a' :: 'l' :: 's' :: 'e' :: rest => some (Json.jbool false, rest)
    | 'n' :: 'u' :: 'l' :: 'l' :: rest => some (Json.jnull, rest)
    | 'N' :: 'a' :: 'N' :: rest => some (Json.jnum ("NaN"), rest)
    | 'I' :: 'n' :: 'f' :: 'i' :: 'n' :: 'i' :: 't' :: 'y' :: rest =>
      some (Json.jnum ("Infinity"), rest)
    | '-' :: 'I' :: 'n' :: 'f' :: 'i' :: 'n' :: 'i' :: 't' :: 'y' :: rest =>
      some (Json.jnum ("-Infinity"), rest)
    | _ => (parseJNum cs).map (fun p => (Json.jnum p.1, p.2))
  | fuel + 1, JTask.jobjBody acc, cs =>
    match cs with
    | '\x7d' :: rest => if acc.isEmpty then some (Json.jobj [], rest) else none
    | '"' :: rest =>
      match parseJStr rest [] with
      | none => none
      | some (k, rest1) =>
        match skipJWs rest1 with
        | ':' :: rest2 =>
          match parseJ fuel JTask.jvalue (skipJWs rest2) with
          | none => none
          | some (v, rest3) =>
            match skipJWs rest3 with
            | ',' :: rest4 =>
              match skipJWs rest4 with
              | '\x7d' :: _ => none
              | rest5 => parseJ fuel (JTask.jobjBody (acc ++ [(k, v)])) rest5
            | '\x7d' :: rest4 => some (Json.jobj (acc ++ [(k, v)]), rest4)
            | _ => none
        | _ => none
    | _ => none
  | fuel + 1, JTask.jarrBody acc, cs =>
    match cs with
    | ']' :: rest => if acc.isEmpty then some (Json.jarr [], rest) else none
    | _ =>
      match parseJ fuel JTask.jvalue cs with
      | none => none
      | some (v, rest1) =>
        match skipJWs rest1 with
        | ',' :: rest2 =>
          match skipJWs rest2 with
          | ']' :: _ => none
          | rest3 => parseJ fuel (JTask.jarrBody (acc ++ [v])) rest3
        | ']' :: rest2 => some (Json.jarr (acc ++ [v]), rest2)
        | _ => none

/-- `json.loads`: parse a complete document with surrounding
whitespace. -/
def jsonLoads (s : String) : Option Json :=
  match parseJ (s.data.length + 16) JTask.jvalue (skipJWs s.data) with
  | some (v, rest) => if skipJWs rest = [] then some v else none
  | none => none

/-- Dictionary lookup with Python `dict` duplicate-key semantics
(the last occurrence of a key wins). -/
def jLookup (kvs : List (String × Json)) (key : String) : Option Json :=
  kvs.foldl (fun acc kv => if kv.1 = key then some kv.2 else acc) none

/-- Whether a raw JSON number token denotes zero (sign, decimal point
and exponent ignored). -/
def jnumIsZero (raw : String) : Bool :=
  let mantissa := (raw.data.takeWhile (fun c => c ≠ 'e' ∧ c ≠ 'E')).filter
    (fun c => c ≠ '-' ∧ c ≠ '+' ∧ c ≠ '.')
  mantissa.all (fun c => c = '0')

/-- Python truthiness of a JSON value. -/
def jsonTruthy : Json → Bool
  | Json.jnull => false
  | Json.jbool b => b
  | Json.jnum raw => ! jnumIsZero raw
  | Json.jstr s => s ≠ ""
  | Json.jarr xs => ! xs.isEmpty
  | Json.jobj kvs => ! kvs.isEmpty

/-- Python truthiness of an optional JSON value (`None` is falsy). -/
def optJsonTruthy : Option Json → Bool
  | none => false
  | some v => jsonTruthy v

/-- Python `a or b` over optional JSON values. -/
def pyOrJson (a b : Option Json) : Option Json :=
  if optJsonTruthy a then a else b

/-! ## Tagged-block extraction (`_extract_json_block`) -/

/-- `_extract_json_block` of the analyzer/corrector: case-insensitive
search for `<tag>` and `</tag>` (first occurrence of each,
independently); returns the slice between them stripped, or the whole
stripped response when either tag is missing.  `tag` is supplied in
lowercase. -/
def extractTaggedBlock (tag : String) (response : String) : String :=
  let lower := response.data.map Char.toLower
  let st := ("<" ++ tag ++ ">").data
  let en := ("</" ++ tag ++ ">").data
  if containsSub st lower && containsSub en lower then
    let si := (indexOfSub st lower).getD 0 + st.length
    let ei := (indexOfSub en lower).getD 0
    pyStrip (String.mk (sliceL response.data si ei))
  else pyStrip response

/-- `RequirementCodeWriter._fix_signature_in_code`. -/
def fixSignatureInCode (requirement code : String) : Option String :=
  match extractSig requirement, extractSig code with
  | none, _ => none
  | some _, none => none
  | some (reqName, reqParams), some (codeName, codeParams) =>
    if reqParams.length ≠ codeParams.length then none
    else
      let newDef := mkNewDef reqName reqParams codeParams requirement
      let fixed := subFirstDef codeName.data newDef.data code.data
      let fixed2 :=
        if reqName ≠ codeName ∧ reqName ≠ "candidate" then
          renameCalls codeName.data reqName.data fixed
        else fixed
      some (String.mk fixed2)

/-! ## Layered code extraction (`_extract_code_multilayer`) -/

/-- Index of the last occurrence of `c` in `cs`. -/
def lastIdxOf (c : Char) (cs : List Char) : Option Nat :=
  (indexOfSub [c] cs.reverse).map (fun i => cs.length - 1 - i)

/-- The common tail `\s*\n(.*?)```` of the fenced-block patterns,
applied to the text following the fence tag.  The greedy `\s*` places
the mandatory newline at the last newline of the whitespace run; the
lazy capture ends at the first following triple backtick.  Returns the
stripped capture. -/
def fenceTail (rest : List Char) : Option String :=
  let ws := rest.takeWhile isPyWs
  match lastIdxOf '\n' ws with
  | none => none
  | some k =>
    let rest2 := rest.drop (k + 1)
    match indexOfSub ("```".data) rest2 with
    | some j => some (pyStrip (String.mk (rest2.take j)))
    | none => none

/-- `_try_extract_markdown_python`: leftmost match of
```` ```[pP]ython\s*\n(.*?)``` ```` (DOTALL), stripped. -/
def tryMarkdownPython : List Char → Option String
  | [] => none
  | c :: rest =>
    if startsL ("```python".data) (c :: rest) ||
        startsL ("```Python".data) (c :: rest) then
      match fenceTail ((c :: rest).drop 9) with
      | some s => some s
      | none => tryMarkdownPython rest
    else tryMarkdownPython rest

/-- `_try_extract_markdown_any`: leftmost match of
```` ```(?:\w*)\s*\n(.*?)``` ````; only the first match is considered,
and its content is returned only when it contains one of the code
markers (otherwise the method yields the empty string). -/
def tryMarkdownAny : List Char → Option String
  | [] => none
  | c :: rest =>
    if startsL ("```".data) (c :: rest) then
      let afterTicks := (c :: rest).drop 3
      let w := afterTicks.takeWhile isWordCh
      match fenceTail (afterTicks.drop w.length) with
      | some code =>
        if containsSub ("def ".data) code.data ||
            containsSub ("import ".data) code.data ||
            containsSub ("class ".data) code.data then
          some code
        else some ("")
      | none => tryMarkdownAny rest
    else tryMarkdownAny rest

/-- `_try_extract_simple_tags`: content between the first
case-insensitive `<code>` and the first subsequent `</code>`,
stripped. -/
def trySimpleTags (cs : List Char) : Option String :=
  let lower := cs.map Char.toLower
  match indexOfSub ("<code>".data) lower with
  | none => none
  | some i =>
    let afterIdx := i + 6
    match indexOfSub ("</code>".data) (lower.drop afterIdx) with
    | none => none
    | some j => some (pyStrip (String.mk (sliceL cs afterIdx (afterIdx + j))))

/-- Split on newline characters, keeping empty pieces
(Python `s.split("\n")`). -/
def splitNL : List Char → List (List Char)
  | [] => [[]]
  | '\n' :: rest => [] :: splitNL rest
  | c :: rest =>
    match splitNL rest with
    | h :: t => (c :: h) :: t
    | [] => [[c]]

/-- Python `"\n".join(lines)`. -/
def joinNL (lines : List (List Char)) : List Char :=
  match lines with
  | [] => []
  | [l] => l
  | l :: rest => l ++ '\n' :: joinNL rest

/-- The markdown-fence unwrapping step of `_try_extract_legacy_json`. -/
def stripFenceWrap (blob : List Char) : List Char :=
  if startsL ("```".data) blob then
    let lines := splitNL blob
    let lines1 :=
      if startsL ("```".data) (pyStripL (lines.headD [])) then lines.drop 1
      else lines
    let lines2 :=
      if ! lines1.isEmpty ∧ pyStripL ((lines1.getLast?.getD [])) = "```".data
      then lines1.dropLast
      else lines1
    pyStripL (joinNL lines2)
  else blob

/-- `re.sub(r',(\s*[}\]])', r'\1', blob)`: remove commas that are
followed (through whitespace) by a closing brace or bracket.  The
scanner keeps a pending buffer holding a candidate comma and the
whitespace seen after it. -/
def rmTCGo (pending : List Char) : List Char → List Char
  | [] => pending.reverse
  | c :: rest =>
    if pending.isEmpty then
      if c = ',' then rmTCGo [','] rest else c :: rmTCGo [] rest
    else
      if isPyWs c then rmTCGo (c :: pending) rest
      else if c = '\x7d' || c = ']' then
        (pending.reverse.drop 1) ++ c :: rmTCGo [] rest
      else if c = ',' then
        pending.reverse ++ rmTCGo [','] rest
      else
        pending.reverse ++ c :: rmTCGo [] rest

/-- Trailing-comma repair used before the legacy JSON parse. -/
def rmTrailingCommas (cs : List Char) : List Char :=
  rmTCGo [] cs

/-- `_try_extract_legacy_json`: optional `<CODE_DELIVERABLE>` envelope,
fence unwrap, trailing-comma repair, JSON parse, and extraction of a
string-valued `code` field.  Any parse error or missing/non-string
field yields no result (the source returns the empty string). -/
def tryLegacyJson (cs : List Char) : Option String :=
  let lower := cs.map Char.toLower
  let st := "<code_deliverable>".data
  let en := "</code_deliverable>".data
  let blob :=
    if containsSub st lower && containsSub en lower then
      pyStripL (sliceL cs ((indexOfSub st lower).getD 0 + st.length)
        ((indexOfSub en lower).getD 0))
    else pyStripL cs
  let blob2 := rmTrailingCommas (stripFenceWrap blob)
  match jsonLoads (String.mk blob2) with
  | some (Json.jobj kvs) =>
    match jLookup kvs ("code") with
    | some (Json.jstr s) => some (pyStrip s)
    | _ => none
  | _ => none

/-- Start-of-code test for `_try_extract_function_definition`. -/
def lineStartsCode5 (l : List Char) : Bool :=
  let s := pyStripL l
  startsL ("from ".data) s || startsL ("import ".data) s ||
    startsL ("def ".data) s

/-- Line collection loop of `_try_extract_function_definition`: stop at
a bare fence close or a closing tag. -/
def collectLines5 : List (List Char) → List (List Char)
  | [] => []
  | l :: rest =>
    let s := pyStripL l
    if s = "```".data || startsL ("</".data) s then []
    else l :: collectLines5 rest

/-- `_try_extract_function_definition`. -/
def tryFunctionDefinition (cs : List Char) : Option String :=
  let lines := splitNL cs
  let rest := lines.dropWhile (fun l => ! lineStartsCode5 l)
  if rest.isEmpty then none
  else
    let code := pyStripL (joinNL (collectLines5 rest))
    if containsSub ("def ".data) code then some (String.mk code) else none

/-- Start-of-code test for `_try_extract_any_code`. -/
def lineStartsCode6 (s : List Char) : Bool :=
  startsL ("def ".data) s || startsL ("class ".data) s ||
    startsL ("import ".data) s || startsL ("from ".data) s ||
    startsL ("@".data) s

/-- Line collection loop of `_try_extract_any_code`: once collection
has started, stop at fences, closing tags, and markdown-heading-like
`#` lines (a `#` line followed by a space is kept as code). -/
def collectLines6 (inCode : Bool) : List (List Char) → List (List Char)
  | [] => []
  | l :: rest =>
    let s := pyStripL l
    let inCode2 := inCode || lineStartsCode6 s
    if inCode2 then
      if startsL ("```".data) s || startsL ("</".data) s ||
          startsL ("#".data) s then
        if startsL ("#".data) s ∧ ¬ (startsL ("# ".data) s = true) then []
        else if startsL ("```".data) s || startsL ("</".data) s then []
        else l :: collectLines6 true rest
      else l :: collectLines6 true rest
    else collectLines6 false rest

/-- `_try_extract_any_code`. -/
def tryAnyCode (cs : List Char) : Option String :=
  let code := pyStripL (joinNL (collectLines6 false (splitNL cs)))
  if containsSub ("def ".data) code then some (String.mk code) else none

/-- `_extract_code_multilayer`: the six extraction methods tried in
order, stopping at the first truthy (non-empty) result. -/
def extractCodeMultilayer (response : String) : String × String :=
  let cs := response.data
  let m1 := (tryMarkdownPython cs).getD ("")
  if m1 ≠ "" then (m1, "markdown_python") else
  let m2 := (tryMarkdownAny cs).getD ("")
  if m2 ≠ "" then (m2, "markdown_any") else
  let m3 := (trySimpleTags cs).getD ("")
  if m3 ≠ "" then (m3, "simple_tags") else
  let m4 := (tryLegacyJson cs).getD ("")
  if m4 ≠ "" then (m4, "legacy_json") else
  let m5 := (tryFunctionDefinition cs).getD ("")
  if m5 ≠ "" then (m5, "function_definition") else
  let m6 := (tryAnyCode cs).getD ("")
  if m6 ≠ "" then (m6, "any_code") else
  ("", "none")

/-! ## Data model (`types.py`) -/

/-- `RequirementIssue` (the sanitized record built by the analyzer;
`evidence` and the clarifying questions keep their raw JSON payloads
since the source stores them unchecked). -/
structure RequirementIssue where
  issueType : String
  description : String
  evidence : Option Json
  severity : String
  clarifyingQuestions : List Json
deriving Repr

/-- `AnalyzerOutput`. -/
structure AnalyzerOutput where
  normalizedRequirement : String
  issues : List RequirementIssue
  reasoning : String
  decision : String
  rawJson : String
  originalFunctionSignature : String
deriving Repr

/-- `CorrectionOutput`. -/
structure CorrectionOutput where
  improvedRequirement : String
  appliedFixes : List String
  openQuestions : List String
  rawJson : String
  originalFunctionSignature : String
deriving Repr

/-- One trace entry appended per analyzer round
(`history.append({...})` plus the in-place correction fields added at
the end of a corrective round). -/
structure HistEntry where
  iteration : Nat
  decision : String
  issues : List RequirementIssue
  normalizedRequirement : String
  analyzerRawJson : String
  originalFunctionSignature : String
  correctionFixes : Option (List String) := none
  correctionQuestions : Option (List String) := none
  correctorRawJson : Option String := none
  correctorOriginalFunctionSignature : Option String := none
deriving Repr

/-- `CodeGenerationOutput` (the trace and iteration count default to
empty and are attached by the orchestrator after the writer returns,
as in the source). -/
structure CodeGenerationOutput where
  finalizedRequirement : String
  code : String
  tests : String
  assumptions : List String
  trace : List HistEntry := []
  correctionIterations : Nat := 0
deriving Repr

/-- `RequirementCodeWriter._parse_response`: extract code, validate the
signature against the requirement, auto-repair on failure (keeping the
extracted code when the repair is unavailable or falsy), and report a
diagnostic assumption when nothing was extracted. -/
def writerParseResponse (response requirement : String) :
    CodeGenerationOutput :=
  let code0 := (extractCodeMultilayer response).1
  let code :=
    if code0 ≠ "" then
      if (writerValidateSig requirement code0).1 then code0
      else
        match fixSignatureInCode requirement code0 with
        | some f => if f ≠ "" then f else code0
        | none => code0
    else code0
  { finalizedRequirement := requirement
    code := code
    tests := ""
    assumptions :=
      if code ≠ "" then [] else ["Failed to extract code from response"] }

/-! ## Analyzer response parsing (`RequirementAnalyzer._parse_response`)

`json.loads` output is decoded into a typed payload; decoding returns
`none` exactly when the Python code would raise an uncaught exception
while reading the parsed data (for example `.strip()` or `.lower()` on
a non-string, or iterating a non-list `issues` entry); such responses
produce no `AnalyzerOutput` at all, which the `Option` models. -/

/-- Decode a field value that the source pipes through
`(value or "").strip()...`-style handling: a falsy value behaves as the
empty default (`none` here), a truthy string is kept, and a truthy
non-string would raise (`none` overall). -/
def decodeStrOrFalsy : Option Json → Option (Option String)
  | none => some none
  | some v =>
    if jsonTruthy v then
      match v with
      | Json.jstr s => some (some s)
      | _ => none
    else some none

/-- The `reasoning` payload: string, object (rendered through
`json.dumps`), or any other type (ignored). -/
inductive ReasoningData where
  | rstr (s : String) : ReasoningData
  | rdict (kvs : List (String × Json)) : ReasoningData
  | rother : ReasoningData
deriving Repr

mutual

/-- Serialization standing in for
`json.dumps(reasoning_data, ensure_ascii=False, indent=2)`; the exact
layout of this string is never inspected downstream, only its
non-emptiness (an object dump is never empty since it starts with a
brace). -/
def jsonDumps : Json → String
  | Json.jnull => "null"
  | Json.jbool b => if b then ("true") else ("false")
  | Json.jnum raw => raw
  | Json.jstr s => "\x22" ++ s ++ "\x22"
  | Json.jarr xs => "[" ++ String.intercalate (", ") (jsonDumpsList xs) ++ "]"
  | Json.jobj kvs =>
    "\x7b" ++ String.intercalate (", ") (jsonDumpsObj kvs) ++ "\x7d"

/-- Render array elements. -/
def jsonDumpsList : List Json → List String
  | [] => []
  | v :: rest => jsonDumps v :: jsonDumpsList rest

/-- Render object entries. -/
def jsonDumpsObj : List (String × Json) → List String
  | [] => []
  | (k, v) :: rest =>
    ("\x22" ++ k ++ "\x22: " ++ jsonDumps v) :: jsonDumpsObj rest

end

/-- One raw issue entry that survived the
`if not item.get("description"): continue` guard: a truthy string
description together with the raw values feeding the sanitizers. -/
structure IssueItemData where
  description : String
  issueTypeRaw : Option String
  evidence : Option Json
  severityRaw : Option String
  clarifyingQuestions : List Json
deriving Repr

/-- Decode one element of the `issues` array.  `some none` means the
item is skipped (falsy description); outer `none` means the item would
make the Python loop raise. -/
def decodeIssueItem (kvs : List (String × Json)) :
    Option (Option IssueItemData) :=
  let dv := jLookup kvs ("description")
  if ! optJsonTruthy dv then some none
  else
    match dv with
    | some (Json.jstr s) =>
      match decodeStrOrFalsy
          (pyOrJson (jLookup kvs ("issue_type")) (jLookup kvs ("type"))) with
      | none => none
      | some tRaw =>
        match decodeStrOrFalsy (jLookup kvs ("severity")) with
        | none => none
        | some sevRaw =>
          let ev := pyOrJson (jLookup kvs ("evidence")) (jLookup kvs ("location"))
          let cq0 := (jLookup kvs ("clarifying_questions")).getD (Json.jarr [])
          let sug := jLookup kvs ("suggestion")
          let cq :=
            if ! jsonTruthy cq0 ∧ optJsonTruthy sug then
              [sug.getD Json.jnull]
            else
              match cq0 with
              | Json.jarr l => l
              | _ => []
          some (some
            { description := s, issueTypeRaw := tRaw, evidence := ev,
              severityRaw := sevRaw, clarifyingQuestions := cq })
    | _ => none

/-- Decode the `issues` array (absent behaves as empty; a present
non-array or a non-object element raises). -/
def decodeIssues (v : Option Json) : Option (List IssueItemData) :=
  match v with
  | none => some []
  | some (Json.jarr items) =>
    items.foldr
      (fun item acc =>
        match item with
        | Json.jobj kvs =>
          match decodeIssueItem kvs, acc with
          | some (some it), some rest => some (it :: rest)
          | some none, some rest => some rest
          | _, _ => none
        | _ => none)
      (some [])
  | some _ => none

/-- The typed payload read by `_parse_response` from the parsed JSON
object. -/
structure AnalyzerData where
  issues : List IssueItemData
  decisionRaw : Option String
  normalizedRaw : Option String
  reasoning : ReasoningData
  sigRaw : Option String
deriving Repr

/-- Decode the whole analyzer payload (must be a JSON object; string
fields read through `.strip()`/`.lower()` must be strings when
present). -/
def decodeAnalyzerData (j : Json) : Option AnalyzerData :=
  match j with
  | Json.jobj kvs =>
    match decodeIssues (jLookup kvs ("issues")) with
    | none => none
    | some issues =>
      let decodeStrField : Option Json → Option (Option String) := fun v =>
        match v with
        | none => some none
        | some (Json.jstr s) => some (some s)
        | some _ => none
      match decodeStrField (jLookup kvs ("decision")) with
      | none => none
      | some decisionRaw =>
        match decodeStrField (jLookup kvs ("normalized_requirement")) with
        | none => none
        | some normalizedRaw =>
          match decodeStrField
              (jLookup kvs ("original_function_signature")) with
          | none => none
          | some sigRaw =>
            let reasoning :=
              match jLookup kvs ("reasoning") with
              | some (Json.jstr s) => ReasoningData.rstr s
              | some (Json.jobj rkvs) => ReasoningData.rdict rkvs
              | some _ => ReasoningData.rother
              | none => ReasoningData.rstr ("")
            some { issues := issues, decisionRaw := decisionRaw,
                   normalizedRaw := normalizedRaw, reasoning := reasoning,
                   sigRaw := sigRaw }
  | _ => none

/-- `RequirementAnalyzer._sanitize_issue_type`. -/
def sanitizeIssueType (raw : Option String) : String :=
  let normalized := pyLower (pyStrip (raw.getD ("")))
  let allowed := ["ambiguity", "inconsistency", "incompleteness", "conflict",
    "missing_context", "underspecified", "boundary"]
  if allowed.contains normalized then normalized else ("ambiguity")

/-- `RequirementAnalyzer._sanitize_severity` (`critical` is folded to
`high`). -/
def sanitizeSeverity (raw : Option String) : String :=
  let normalized := pyLower (pyStrip (raw.getD ("")))
  let allowed := ["low", "medium", "high", "critical"]
  if normalized = "critical" then ("high")
  else if allowed.contains normalized then normalized else ("medium")

/-- The success path of `RequirementAnalyzer._parse_response`: sanitize
the issue entries and derive the decision from the issue list alone
(the raw backend decision string is read — and `needs_correction` is
renamed — only for logging, so it does not influence the output). -/
def analyzerBuild (d : AnalyzerData) (fallbackReq rawJsonBlock : String) :
    AnalyzerOutput :=
  let issues := d.issues.map (fun it =>
    { issueType := sanitizeIssueType it.issueTypeRaw
      description := pyStrip it.description
      evidence := it.evidence
      severity := sanitizeSeverity it.severityRaw
      clarifyingQuestions := it.clarifyingQuestions })
  let decision := if ! issues.isEmpty then ("needs_clarification") else ("ready")
  let reasoningStr :=
    match d.reasoning with
    | ReasoningData.rstr s => s
    | ReasoningData.rdict rkvs => jsonDumps (Json.jobj rkvs)
    | ReasoningData.rother => ""
  { normalizedRequirement := pyStrip (d.normalizedRaw.getD fallbackReq)
    issues := issues
    reasoning := if reasoningStr ≠ "" then pyStrip reasoningStr else ""
    decision := decision
    rawJson := rawJsonBlock
    originalFunctionSignature := pyStrip (d.sigRaw.getD ("")) }

/-- The graceful fallback returned when `json.loads` fails. -/
def analyzerFallback (fallbackReq rawJsonBlock response : String) :
    AnalyzerOutput :=
  { normalizedRequirement := fallbackReq
    issues := []
    reasoning :=
      "Failed to parse analyzer response; defaulting to original requirement."
    decision := "ready"
    rawJson := if rawJsonBlock ≠ "" then rawJsonBlock else response
    originalFunctionSignature := "" }

/-- `RequirementAnalyzer._parse_response` end to end: extract the
`<ANALYSIS>` block, parse it as JSON (falling back gracefully on
failure), decode and build.  `none` models an uncaught exception while
reading a well-formed but ill-typed payload. -/
def analyzerParseResponse (response fallbackReq : String) :
    Option AnalyzerOutput :=
  let blob := extractTaggedBlock ("analysis") response
  match jsonLoads blob with
  | none => some (analyzerFallback fallbackReq blob response)
  | some j => (decodeAnalyzerData j).map (fun d =>
      analyzerBuild d fallbackReq blob)

/-! ## Corrector response parsing (`RequirementCorrector._parse_response`) -/

/-- The typed payload read by the corrector from the parsed JSON
object. -/
structure CorrectionData where
  improvedRaw : Option String
  appliedFixesRaw : List (Option String)
  openQuestionsRaw : List (Option String)
  sigRaw : Option String
deriving Repr

/-- Decode a list field filtered by
`[x.strip() for x in ... if x]`: absent behaves as empty, elements are
kept as `some` when truthy strings, dropped (`none`) when falsy; a
truthy non-string element or a non-array field raises. -/
def decodeStrListField (v : Option Json) : Option (List (Option String)) :=
  match v with
  | none => some []
  | some (Json.jarr items) =>
    items.foldr
      (fun item acc =>
        match decodeStrOrFalsy (some item), acc with
        | some s, some rest => some (s :: rest)
        | _, _ => none)
      (some [])
  | some _ => none

/-- Decode the whole corrector payload. -/
def decodeCorrectionData (j : Json) : Option CorrectionData :=
  match j with
  | Json.jobj kvs =>
    let decodeStrField : Option Json → Option (Option String) := fun v =>
      match v with
      | none => some none
      | some (Json.jstr s) => some (some s)
      | some _ => none
    match decodeStrField (jLookup kvs ("improved_requirement")) with
    | none => none
    | some improvedRaw =>
      match decodeStrListField (jLookup kvs ("applied_fixes")) with
      | none => none
      | some fixesRaw =>
        match decodeStrListField (jLookup kvs ("open_questions")) with
        | none => none
        | some questionsRaw =>
          match decodeStrField
              (jLookup kvs ("original_function_signature")) with
          | none => none
          | some sigRaw =>
            some { improvedRaw := improvedRaw, appliedFixesRaw := fixesRaw,
                   openQuestionsRaw := questionsRaw, sigRaw := sigRaw }
  | _ => none

/-- The success path of `RequirementCorrector._parse_response`:
strip the improved requirement, validate the signature against the
original, and revert entirely on failure. -/
def correctorBuild (d : CorrectionData) (fallbackReq rawJsonBlock : String) :
    CorrectionOutput :=
  let improved := pyStrip (d.improvedRaw.getD fallbackReq)
  let v := correctorValidateSig fallbackReq improved
  if ! v.1 then
    { improvedRequirement := fallbackReq
      appliedFixes :=
        ["Signature validation failed: " ++ v.2 ++ ". Reverted to original."]
      openQuestions := []
      rawJson := ""
      originalFunctionSignature := "" }
  else
    { improvedRequirement := improved
      appliedFixes := (d.appliedFixesRaw.filterMap id).map pyStrip
      openQuestions := (d.openQuestionsRaw.filterMap id).map pyStrip
      rawJson := rawJsonBlock
      originalFunctionSignature := pyStrip (d.sigRaw.getD ("")) }

/-- `RequirementCorrector._parse_response` end to end. -/
def correctorParseResponse (response fallbackReq : String) :
    Option CorrectionOutput :=
  let blob := extractTaggedBlock ("correction") response
  match jsonLoads blob with
  | none => some
      { improvedRequirement := fallbackReq
        appliedFixes :=
          ["Failed to parse correction output; returning original requirement."]
        openQuestions := []
        rawJson := if blob ≠ "" then blob else response
        originalFunctionSignature := "" }
  | some j => (decodeCorrectionData j).map (fun d =>
      correctorBuild d fallbackReq blob)

/-! ## Orchestrator (`RequirementCodegenOrchestrator.run`)

The three agents are parameters: each models
`parse_response ∘ backend` for an arbitrary backend, which is the
external collaborator.  The loop is instrumented with call counters and
with the argument lists passed to the corrector and the writer, so that
theorems can speak about the calls the Python code makes. -/

/-- The loop state of `run` (local variables of the Python method). -/
structure LoopState where
  history : List HistEntry
  current : String
  snapshot : Option AnalyzerOutput
  sig : String
  ccount : Nat
  acalls : Nat
  correctorInputs : List (String × List RequirementIssue × String)
  lastCorrection : Option CorrectionOutput
deriving Repr

/-- The state after an analyzer round that stops the loop (both the
ready break and the needs-clarification-without-issues break): append
the round's trace entry, remember the snapshot and the possibly
captured signature, and count the analyzer call. -/
def loopBreakState (st : LoopState) (iteration : Nat)
    (snap : AnalyzerOutput) (sig : String) : LoopState :=
  { st with
    history := st.history ++
      [{ iteration := iteration
         decision := snap.decision
         issues := snap.issues
         normalizedRequirement := snap.normalizedRequirement
         analyzerRawJson := snap.rawJson
         originalFunctionSignature := snap.originalFunctionSignature }]
    snapshot := some snap
    sig := sig
    acalls := st.acalls + 1 }

/-- The state after a corrective round: the corrector is invoked with
the round's normalized requirement, its issues and the captured
signature; the trace entry carries the correction fields; the current
requirement becomes the corrector's output. -/
def loopContinueState
    (C : String → List RequirementIssue → String → CorrectionOutput)
    (st : LoopState) (iteration : Nat) (snap : AnalyzerOutput)
    (sig : String) : LoopState :=
  let corr := C snap.normalizedRequirement snap.issues sig
  { history := st.history ++
      [{ iteration := iteration
         decision := snap.decision
         issues := snap.issues
         normalizedRequirement := snap.normalizedRequirement
         analyzerRawJson := snap.rawJson
         originalFunctionSignature := snap.originalFunctionSignature
         correctionFixes := some corr.appliedFixes
         correctionQuestions := some corr.openQuestions
         correctorRawJson := some corr.rawJson
         correctorOriginalFunctionSignature :=
           some corr.originalFunctionSignature }]
    current := corr.improvedRequirement
    snapshot := some snap
    sig := sig
    ccount := st.ccount + 1
    acalls := st.acalls + 1
    correctorInputs := st.correctorInputs ++
      [(snap.normalizedRequirement, snap.issues, sig)]
    lastCorrection := some corr }

/-- The `for iteration in range(1, max_iterations + 1)` loop.
`remaining` counts the iterations left; `iteration` is the Python loop
variable.  Both `break` paths stop the recursion; the corrective path
updates the last trace entry and continues. -/
def loopGo (A : String → List HistEntry → AnalyzerOutput)
    (C : String → List RequirementIssue → String → CorrectionOutput) :
    Nat → Nat → LoopState → LoopState
  | 0, _, st => st
  | remaining + 1, iteration, st =>
    let snap := A st.current st.history
    let sig :=
      if iteration = 1 ∧ snap.originalFunctionSignature ≠ "" then
        snap.originalFunctionSignature
      else st.sig
    if snap.decision = "ready" ∧ snap.issues.isEmpty then
      loopBreakState st iteration snap sig
    else if snap.issues.isEmpty then
      loopBreakState st iteration snap sig
    else
      loopGo A C remaining (iteration + 1)
        (loopContinueState C st iteration snap sig)

/-- Result of one orchestrator run, instrumented with the inputs handed
to the writer and to each corrector call. -/
structure RunResult where
  output : CodeGenerationOutput
  analyzerCalls : Nat
  correctorCalls : Nat
  writerCalls : Nat
  correctorInputs : List (String × List RequirementIssue × String)
  writerReq : String
  writerSig : String
  lastCorrection : Option CorrectionOutput
  lastSnapshot : AnalyzerOutput
deriving Repr

/-- The initial loop state of `run` (the local variables before the
first iteration). -/
def initLoopState (requirement : String) : LoopState :=
  { history := [], current := requirement, snapshot := none, sig := ""
    ccount := 0, acalls := 0, correctorInputs := [], lastCorrection := none }

/-- `RequirementCodegenOrchestrator.run`: run the loop, assert that the
analyzer ran (`none` models the `AssertionError` raised when
`max_iterations` is zero), pick the final requirement
(`current_requirement` when truthy, else the last snapshot's normalized
requirement), and invoke the writer once. -/
def run (A : String → List HistEntry → AnalyzerOutput)
    (C : String → List RequirementIssue → String → CorrectionOutput)
    (W : String → AnalyzerOutput → String → CodeGenerationOutput)
    (maxIterations : Nat) (requirement : String) : Option RunResult :=
  let lo := loopGo A C maxIterations 1 (initLoopState requirement)
  match lo.snapshot with
  | none => none
  | some snap =>
    let finalReq :=
      if lo.current ≠ "" then lo.current else snap.normalizedRequirement
    let out := W finalReq snap lo.sig
    some
      { output :=
          { out with trace := lo.history, correctionIterations := lo.ccount }
        analyzerCalls := lo.acalls
        correctorCalls := lo.ccount
        writerCalls := 1
        correctorInputs := lo.correctorInputs
        writerReq := finalReq
        writerSig := lo.sig
        lastCorrection := lo.lastCorrection
        lastSnapshot := snap }

/-- The writer role as the composition of an arbitrary backend with
`RequirementCodeWriter._parse_response` (the analyzer snapshot argument
is accepted and ignored, as in `RequirementCodeWriter.process`). -/
def writerRole (backend : String → String → String) :
    String → AnalyzerOutput → String → CodeGenerationOutput :=
  fun req _ sig => writerParseResponse (backend req sig) req

/-! ## Theorems -/

/-- Helper: the success-path output always satisfies the
decision/issues equivalence. -/
theorem analyzerBuild_decision_iff (d : AnalyzerData)
    (fallbackReq rawJsonBlock : String) :
    (analyzerBuild d fallbackReq rawJsonBlock).decision = "ready" ↔
      (analyzerBuild d fallbackReq rawJsonBlock).issues = [] := by
  simp only [analyzerBuild]
  rcases d.issues with _ | ⟨it, rest⟩ <;> simp [List.isEmpty]

/-- Helper: every value returned by `analyzerParseResponse` is either
the parse-failure fallback or a built success output. -/
theorem analyzerParseResponse_cases (response fallbackReq : String)
    (out : AnalyzerOutput)
    (h : analyzerParseResponse response fallbackReq = some out) :
    out = analyzerFallback fallbackReq
        (extractTaggedBlock ("analysis") response) response ∨
    ∃ j d, jsonLoads (extractTaggedBlock ("analysis") response) = some j ∧
      decodeAnalyzerData j = some d ∧
      out = analyzerBuild d fallbackReq
        (extractTaggedBlock ("analysis") response) := by
  simp only [analyzerParseResponse] at h
  cases hj : jsonLoads (extractTaggedBlock ("analysis") response) with
  | none =>
    simp only [hj, Option.some.injEq] at h
    exact Or.inl h.symm
  | some j =>
    simp only [hj] at h
    cases hd : decodeAnalyzerData j with
    | none => rw [hd] at h; exact Option.noConfusion h
    | some d =>
      simp only [hd, Option.map_some', Option.some.injEq] at h
      exact Or.inr ⟨j, d, rfl, hd, h.symm⟩

/-- C1: for every value returned by
`RequirementAnalyzer._parse_response`, the decision equals `"ready"`
exactly when the issues list is empty, whatever decision string the raw
backend payload carried. -/
theorem claim_C1 (response fallbackReq : String) (out : AnalyzerOutput)
    (h : analyzerParseResponse response fallbackReq = some out) :
    out.decision = "ready" ↔ out.issues = [] := by
  rcases analyzerParseResponse_cases response fallbackReq out h with
    heq | ⟨j, d, _, _, heq⟩
  · subst heq; simp [analyzerFallback]
  · subst heq; exact analyzerBuild_decision_iff d fallbackReq _

set_option maxRecDepth 8000 in
/-- C1 witness: a backend payload that claims `needs_correction` while
reporting no issues is overridden to `ready`. -/
theorem claim_C1_witness :
    analyzerParseResponse
        ("<ANALYSIS>\x7b\x22decision\x22: \x22needs_correction\x22, \x22issues\x22: []\x7d</ANALYSIS>")
        ("REQ") = some (analyzerBuild
          { issues := [], decisionRaw := some ("needs_correction"),
            normalizedRaw := none, reasoning := ReasoningData.rstr (""),
            sigRaw := none } ("REQ")
          ("\x7b\x22decision\x22: \x22needs_correction\x22, \x22issues\x22: []\x7d")) ∧
    ((analyzerBuild
        { issues := [], decisionRaw := some ("needs_correction"),
          normalizedRaw := none, reasoning := ReasoningData.rstr (""),
          sigRaw := none } ("REQ")
        ("\x7b\x22decision\x22: \x22needs_correction\x22, \x22issues\x22: []\x7d")).decision = "ready" ↔
      (analyzerBuild
        { issues := [], decisionRaw := some ("needs_correction"),
          normalizedRaw := none, reasoning := ReasoningData.rstr (""),
          sigRaw := none } ("REQ")
        ("\x7b\x22decision\x22: \x22needs_correction\x22, \x22issues\x22: []\x7d")).issues = []) :=
  And.intro rfl
    (claim_C1
      ("<ANALYSIS>\x7b\x22decision\x22: \x22needs_correction\x22, \x22issues\x22: []\x7d</ANALYSIS>")
      ("REQ")
      (analyzerBuild
        { issues := [], decisionRaw := some ("needs_correction"),
          normalizedRaw := none, reasoning := ReasoningData.rstr (""),
          sigRaw := none } ("REQ")
        ("\x7b\x22decision\x22: \x22needs_correction\x22, \x22issues\x22: []\x7d"))
      rfl)

/-- C8: when the analyzer response yields unparseable JSON, the parser
returns (rather than raises) the safe default: decision `ready`, no
issues, and the original requirement as the normalized output. -/
theorem claim_C8 (response fallbackReq : String)
    (h : jsonLoads (extractTaggedBlock ("analysis") response) = none) :
    ∃ out, analyzerParseResponse response fallbackReq = some out ∧
      out.decision = "ready" ∧ out.issues = [] ∧
      out.normalizedRequirement = fallbackReq := by
  refine ⟨analyzerFallback fallbackReq
    (extractTaggedBlock ("analysis") response) response, ?_, rfl, rfl, rfl⟩
  simp only [analyzerParseResponse, h]

set_option maxRecDepth 8000 in
/-- C8 witness: a free-text backend reply with no JSON at all. -/
theorem claim_C8_witness :
    ∃ out, analyzerParseResponse ("I cannot analyze this.") ("REQ") =
        some out ∧
      out.decision = "ready" ∧ out.issues = [] ∧
      out.normalizedRequirement = "REQ" :=
  claim_C8 ("I cannot analyze this.") ("REQ") (by rfl)

set_option maxRecDepth 8000 in
/-- C10 counterexample: a payload with two identical issue entries
produces an output whose issues list contains two entries with the same
description — the analyzer performs no deduplication. -/
theorem claim_C10_counterexample :
    ∃ out,
      analyzerParseResponse
          ("<ANALYSIS>\x7b\x22issues\x22: [\x7b\x22description\x22: \x22dup\x22\x7d, \x7b\x22description\x22: \x22dup\x22\x7d]\x7d</ANALYSIS>")
          ("REQ") = some out ∧
      out.issues.length = 2 ∧
      out.issues.map (fun i => i.description) = ["dup", "dup"] := by
  refine ⟨_, rfl, ?_, ?_⟩ <;> rfl

/-- C10 amended: the analyzer emits exactly one issue per raw payload
entry whose description is truthy, in payload order, with the stripped
description — duplicates included (no deduplication is performed). -/
theorem claim_C10_amended (response fallbackReq : String)
    (out : AnalyzerOutput) (j : Json) (d : AnalyzerData)
    (hj : jsonLoads (extractTaggedBlock ("analysis") response) = some j)
    (hd : decodeAnalyzerData j = some d)
    (h : analyzerParseResponse response fallbackReq = some out) :
    out.issues.length = d.issues.length ∧
    out.issues.map (fun i => i.description) =
      d.issues.map (fun it => pyStrip it.description) := by
  simp only [analyzerParseResponse, hj, hd] at h
  simp only [Option.map_some', Option.some.injEq] at h
  subst h
  constructor
  · simp [analyzerBuild]
  · simp [analyzerBuild]

set_option maxRecDepth 8000 in
/-- C10 amended witness: the duplicate payload yields both entries. -/
theorem claim_C10_amended_witness :
    (analyzerBuild
        ⟨[⟨"dup", none, none, none, []⟩, ⟨"dup", none, none, none, []⟩],
          none, none, ReasoningData.rstr (""), none⟩ ("REQ")
        ("\x7b\x22issues\x22: [\x7b\x22description\x22: \x22dup\x22\x7d, \x7b\x22description\x22: \x22dup\x22\x7d]\x7d")).issues.length = 2 ∧
    (analyzerBuild
        ⟨[⟨"dup", none, none, none, []⟩, ⟨"dup", none, none, none, []⟩],
          none, none, ReasoningData.rstr (""), none⟩ ("REQ")
        ("\x7b\x22issues\x22: [\x7b\x22description\x22: \x22dup\x22\x7d, \x7b\x22description\x22: \x22dup\x22\x7d]\x7d")).issues.map
      (fun i => i.description) = ["dup", "dup"] := by
  have h := claim_C10_amended
    ("<ANALYSIS>\x7b\x22issues\x22: [\x7b\x22description\x22: \x22dup\x22\x7d, \x7b\x22description\x22: \x22dup\x22\x7d]\x7d</ANALYSIS>")
    ("REQ")
    (analyzerBuild
      ⟨[⟨"dup", none, none, none, []⟩, ⟨"dup", none, none, none, []⟩],
        none, none, ReasoningData.rstr (""), none⟩ ("REQ")
      ("\x7b\x22issues\x22: [\x7b\x22description\x22: \x22dup\x22\x7d, \x7b\x22description\x22: \x22dup\x22\x7d]\x7d"))
    (Json.jobj [("issues", Json.jarr
      [Json.jobj [("description", Json.jstr ("dup"))],
       Json.jobj [("description", Json.jstr ("dup"))]])])
    ⟨[⟨"dup", none, none, none, []⟩, ⟨"dup", none, none, none, []⟩],
      none, none, ReasoningData.rstr (""), none⟩
    rfl rfl rfl
  exact ⟨h.1.trans (by rfl), h.2⟩

/-- Helper: a witnessed both-declared type mismatch at any position
makes the shared type loop report a mismatch. -/
theorem firstTypeMismatch_isSome (as bs : List Param) (i k : Nat)
    (p q : Param) (hp : as.get? k = some p) (hq : bs.get? k = some q)
    (htp : optStrTruthy p.2 = true) (htq : optStrTruthy q.2 = true)
    (hne : normType (p.2.getD ("")) ≠ normType (q.2.getD (""))) :
    (firstTypeMismatch as bs i).isSome := by
  induction k generalizing as bs i with
  | zero =>
    cases as with
    | nil => simp at hp
    | cons a as =>
      cases bs with
      | nil => simp at hq
      | cons b bs =>
        simp only [List.get?] at hp hq
        cases hp; cases hq
        obtain ⟨pn, pt⟩ := p
        obtain ⟨qn, qt⟩ := q
        unfold firstTypeMismatch
        rw [if_pos ⟨htp, htq, hne⟩]
        rfl
  | succ k ih =>
    cases as with
    | nil => simp at hp
    | cons a as =>
      cases bs with
      | nil => simp at hq
      | cons b bs =>
        simp only [List.get?] at hp hq
        obtain ⟨an, at'⟩ := a
        obtain ⟨bn, bt⟩ := b
        unfold firstTypeMismatch
        by_cases hc : optStrTruthy at' = true ∧ optStrTruthy bt = true ∧
            normType (at'.getD ("")) ≠ normType (bt.getD (""))
        · rw [if_pos hc]; rfl
        · rw [if_neg hc]
          exact ih as bs (i + 1) hp hq

/-- Helper: the corrector validator rejects whenever both sides parse
and either the parameter counts differ or some position has declared
types that differ after space removal. -/
theorem correctorValidateSig_fails (a b : String) (na nb : String)
    (pa pb : List Param)
    (ha : extractSig a = some (na, pa)) (hb : extractSig b = some (nb, pb))
    (hdiff : pa.length ≠ pb.length ∨
      ∃ k p q, pa.get? k = some p ∧ pb.get? k = some q ∧
        optStrTruthy p.2 = true ∧ optStrTruthy q.2 = true ∧
        normType (p.2.getD ("")) ≠ normType (q.2.getD (""))) :
    (correctorValidateSig a b).1 = false := by
  simp only [correctorValidateSig, ha, hb]
  by_cases hname : na ≠ nb ∧ na ≠ "candidate" ∧ nb ≠ "candidate"
  · rw [if_pos hname]
  · rw [if_neg hname]
    by_cases hlen : pa.length ≠ pb.length
    · rw [if_pos hlen]
    · rw [if_neg hlen]
      rcases hdiff with hdiff | ⟨k, p, q, hp, hq, htp, htq, hne⟩
      · exact absurd hdiff hlen
      · have hs := firstTypeMismatch_isSome pa pb 0 k p q hp hq htp htq hne
        cases hm : firstTypeMismatch pa pb 0 with
        | none => rw [hm] at hs; simp at hs
        | some m =>
          obtain ⟨i, ot, it⟩ := m
          rfl

/-- C2: if the revised requirement parsed from the corrector backend
output has a signature that differs from the input requirement's in
parameter count or in some parameter type declared on both sides
(compared after space removal, as the source does), the whole repair is
discarded: the returned requirement is the input, byte for byte, and
the applied-fixes list is the single rejection entry. -/
theorem claim_C2 (response fallbackReq : String) (j : Json)
    (d : CorrectionData) (out : CorrectionOutput) (na nb : String)
    (pa pb : List Param)
    (hj : jsonLoads (extractTaggedBlock ("correction") response) = some j)
    (hd : decodeCorrectionData j = some d)
    (h : correctorParseResponse response fallbackReq = some out)
    (ha : extractSig fallbackReq = some (na, pa))
    (hb : extractSig (pyStrip (d.improvedRaw.getD fallbackReq)) =
      some (nb, pb))
    (hdiff : pa.length ≠ pb.length ∨
      ∃ k p q, pa.get? k = some p ∧ pb.get? k = some q ∧
        optStrTruthy p.2 = true ∧ optStrTruthy q.2 = true ∧
        normType (p.2.getD ("")) ≠ normType (q.2.getD (""))) :
    out.improvedRequirement = fallbackReq ∧
    ∃ m, out.appliedFixes =
      ["Signature validation failed: " ++ m ++ ". Reverted to original."] := by
  simp only [correctorParseResponse, hj, hd, Option.map_some',
    Option.some.injEq] at h
  subst h
  have hv := correctorValidateSig_fails fallbackReq
    (pyStrip (d.improvedRaw.getD fallbackReq)) na nb pa pb ha hb hdiff
  simp only [correctorBuild]
  rw [hv]
  simp only [Bool.not_false, if_true]
  exact ⟨trivial, (correctorValidateSig fallbackReq
    (pyStrip (d.improvedRaw.getD fallbackReq))).2, rfl⟩

set_option maxRecDepth 8000 in
/-- C2 witness: a repair that adds a second parameter is rejected and
the original text returned unchanged. -/
theorem claim_C2_witness :
    ∃ out,
      correctorParseResponse
        ("<CORRECTION>\x7b\x22improved_requirement\x22: \x22def f(x: int, y: int): add\x22\x7d</CORRECTION>")
        ("def f(x: int): inc") = some out ∧
      out.improvedRequirement = "def f(x: int): inc" ∧
      ∃ m, out.appliedFixes =
        ["Signature validation failed: " ++ m ++ ". Reverted to original."] := by
  refine ⟨correctorBuild ⟨some ("def f(x: int, y: int): add"), [], [], none⟩
    ("def f(x: int): inc")
    ("\x7b\x22improved_requirement\x22: \x22def f(x: int, y: int): add\x22\x7d"), rfl, ?_⟩
  exact claim_C2
    ("<CORRECTION>\x7b\x22improved_requirement\x22: \x22def f(x: int, y: int): add\x22\x7d</CORRECTION>")
    ("def f(x: int): inc")
    (Json.jobj [("improved_requirement",
      Json.jstr ("def f(x: int, y: int): add"))])
    ⟨some ("def f(x: int, y: int): add"), [], [], none⟩
    (correctorBuild ⟨some ("def f(x: int, y: int): add"), [], [], none⟩
      ("def f(x: int): inc")
      ("\x7b\x22improved_requirement\x22: \x22def f(x: int, y: int): add\x22\x7d"))
    ("f") ("f") ([("x", some ("int"))])
    ([("x", some ("int")), ("y", some ("int"))])
    rfl rfl rfl rfl rfl (Or.inl (by decide))

/-- C7 counterexample: the writer-side comparison accepts code whose
function name differs from the requirement's (neither being the
`candidate` placeholder), so the two roles do not share the name rule
the claim states. -/
theorem claim_C7_counterexample :
    extractSig ("def f(x: int):") = some ("f", [("x", some ("int"))]) ∧
    extractSig ("def g(x: int):") = some ("g", [("x", some ("int"))]) ∧
    ("f" : String) ≠ "g" ∧ ("f" : String) ≠ "candidate" ∧
    ("g" : String) ≠ "candidate" ∧
    writerValidateSig ("def f(x: int):") ("def g(x: int):") = (true, "") :=
  ⟨rfl, rfl, by decide, by decide, by decide, rfl⟩

/-- C7 amended: both comparisons pass when either side fails to parse;
the Corrector's comparison additionally rejects a changed function name
unless one side is the `candidate` placeholder, while the Writer's
comparison imposes no name requirement at all — with equal counts and
no declared-type mismatch it passes regardless of the names. -/
theorem claim_C7_amended :
    (∀ a b, extractSig a = none →
      (correctorValidateSig a b).1 = true ∧
      (writerValidateSig a b).1 = true) ∧
    (∀ a b, extractSig b = none →
      (correctorValidateSig a b).1 = true ∧
      (writerValidateSig a b).1 = true) ∧
    (∀ a b na nb pa pb, extractSig a = some (na, pa) →
      extractSig b = some (nb, pb) → na ≠ nb → na ≠ "candidate" →
      nb ≠ "candidate" → (correctorValidateSig a b).1 = false) ∧
    (∀ a b na nb pa pb, extractSig a = some (na, pa) →
      extractSig b = some (nb, pb) → pa.length = pb.length →
      firstTypeMismatch pa pb 0 = none →
      (writerValidateSig a b).1 = true) := by
  refine ⟨?_, ?_, ?_, ?_⟩
  · intro a b ha
    simp only [correctorValidateSig, writerValidateSig, ha]
    exact ⟨by trivial, by trivial⟩
  · intro a b hb
    simp only [correctorValidateSig, writerValidateSig, hb]
    cases extractSig a <;> exact ⟨by trivial, by trivial⟩
  · intro a b na nb pa pb ha hb hne hc1 hc2
    simp only [correctorValidateSig, ha, hb]
    rw [if_pos ⟨hne, hc1, hc2⟩]
  · intro a b na nb pa pb ha hb hlen hmm
    simp only [writerValidateSig, ha, hb, hmm]
    rw [if_neg (by omega)]

/-- C7 amended witness: the corrector rejects a renamed function while
the writer accepts the same pair. -/
theorem claim_C7_amended_witness :
    (correctorValidateSig ("def f(x: int):") ("def g(x: int):")).1 = false ∧
    (writerValidateSig ("def f(x: int):") ("def g(x: int):")).1 = true ∧
    (correctorValidateSig ("no signature here") ("def g(x: int):")).1 =
      true :=
  ⟨claim_C7_amended.2.2.1 ("def f(x: int):") ("def g(x: int):")
      ("f") ("g") ([("x", some ("int"))]) ([("x", some ("int"))])
      rfl rfl (by decide) (by decide) (by decide),
    claim_C7_amended.2.2.2 ("def f(x: int):") ("def g(x: int):")
      ("f") ("g") ([("x", some ("int"))]) ([("x", some ("int"))])
      rfl rfl rfl rfl,
    (claim_C7_amended.1 ("no signature here") ("def g(x: int):") rfl).1⟩

/-- Helper: the two stop states append one entry carrying the round
index. -/
theorem loopBreakState_history (st : LoopState) (iteration : Nat)
    (snap : AnalyzerOutput) (sig : String) :
    ∃ e, (loopBreakState st iteration snap sig).history =
        st.history ++ [e] ∧ e.iteration = iteration ∧
      e.originalFunctionSignature = snap.originalFunctionSignature :=
  ⟨_, rfl, rfl, rfl⟩

/-- Helper: the corrective state appends one entry carrying the round
index. -/
theorem loopContinueState_history
    (C : String → List RequirementIssue → String → CorrectionOutput)
    (st : LoopState) (iteration : Nat) (snap : AnalyzerOutput)
    (sig : String) :
    ∃ e, (loopContinueState C st iteration snap sig).history =
        st.history ++ [e] ∧ e.iteration = iteration ∧
      e.originalFunctionSignature = snap.originalFunctionSignature :=
  ⟨_, rfl, rfl, rfl⟩

/-- Helper: the loop performs at most `r` further analyzer calls and
appends exactly one trace entry per call, with consecutive iteration
indices starting at `iter`. -/
theorem loopGo_spec (A : String → List HistEntry → AnalyzerOutput)
    (C : String → List RequirementIssue → String → CorrectionOutput)
    (r : Nat) : ∀ (iter : Nat) (st : LoopState),
    ∃ k, k ≤ r ∧ (loopGo A C r iter st).acalls = st.acalls + k ∧
      ∃ es, (loopGo A C r iter st).history = st.history ++ es ∧
        es.length = k ∧
        ∀ j, (hj : j < es.length) →
          (es.get ⟨j, hj⟩).iteration = iter + j := by
  induction r with
  | zero =>
    intro iter st
    exact ⟨0, le_rfl, by simp [loopGo], [], by simp [loopGo], rfl,
      fun j hj => absurd hj (by simp)⟩
  | succ r ih =>
    intro iter st
    simp only [loopGo]
    split
    · obtain ⟨e, he, hei, _⟩ :=
        loopBreakState_history st iter (A st.current st.history) _
      refine ⟨1, by omega, rfl, [e], by rw [he], rfl, ?_⟩
      intro j hj
      cases j with
      | zero => simpa using hei
      | succ j => exact absurd hj (by simp)
    · split
      · obtain ⟨e, he, hei, _⟩ :=
          loopBreakState_history st iter (A st.current st.history) _
        refine ⟨1, by omega, rfl, [e], by rw [he], rfl, ?_⟩
        intro j hj
        cases j with
        | zero => simpa using hei
        | succ j => exact absurd hj (by simp)
      · obtain ⟨k, hk, hac, es, hh, hlen, hit⟩ := ih (iter + 1)
          (loopContinueState C st iter (A st.current st.history)
            (if iter = 1 ∧
                (A st.current st.history).originalFunctionSignature ≠ "" then
              (A st.current st.history).originalFunctionSignature
            else st.sig))
        obtain ⟨e, he, hei, _⟩ :=
          loopContinueState_history C st iter (A st.current st.history)
            (if iter = 1 ∧
                (A st.current st.history).originalFunctionSignature ≠ "" then
              (A st.current st.history).originalFunctionSignature
            else st.sig)
        rw [he] at hh
        have hac2 : (loopContinueState C st iter (A st.current st.history)
            (if iter = 1 ∧
                (A st.current st.history).originalFunctionSignature ≠ "" then
              (A st.current st.history).originalFunctionSignature
            else st.sig)).acalls = st.acalls + 1 := rfl
        rw [hac2] at hac
        refine ⟨k + 1, by omega, by rw [hac]; omega, e :: es, ?_, ?_, ?_⟩
        · rw [hh]
          simp
        · simp [hlen]
        · intro j hj
          cases j with
          | zero => simpa using hei
          | succ j =>
            have hj2 : j < es.length := by
              simp only [List.length_cons] at hj
              omega
            have := hit j hj2
            simp only [List.get_cons_succ]
            rw [this]
            omega

/-- Helper: destructure a successful `run` into its loop result. -/
theorem run_elim (A : String → List HistEntry → AnalyzerOutput)
    (C : String → List RequirementIssue → String → CorrectionOutput)
    (W : String → AnalyzerOutput → String → CodeGenerationOutput)
    (maxIterations : Nat) (requirement : String) (res : RunResult)
    (h : run A C W maxIterations requirement = some res) :
    ∃ snap,
      (loopGo A C maxIterations 1 (initLoopState requirement)).snapshot =
        some snap ∧
      res.analyzerCalls =
        (loopGo A C maxIterations 1 (initLoopState requirement)).acalls ∧
      res.output.trace =
        (loopGo A C maxIterations 1 (initLoopState requirement)).history ∧
      res.correctorCalls =
        (loopGo A C maxIterations 1 (initLoopState requirement)).ccount ∧
      res.correctorInputs =
        (loopGo A C maxIterations 1 (initLoopState requirement)).correctorInputs ∧
      res.writerSig =
        (loopGo A C maxIterations 1 (initLoopState requirement)).sig ∧
      res.writerReq =
        (if (loopGo A C maxIterations 1 (initLoopState requirement)).current
            ≠ "" then
          (loopGo A C maxIterations 1 (initLoopState requirement)).current
        else snap.normalizedRequirement) ∧
      res.lastCorrection =
        (loopGo A C maxIterations 1 (initLoopState requirement)).lastCorrection ∧
      res.lastSnapshot = snap ∧
      res.writerCalls = 1 ∧
      res.output.code = (W res.writerReq snap res.writerSig).code ∧
      res.output.assumptions =
        (W res.writerReq snap res.writerSig).assumptions := by
  simp only [run] at h
  cases hsnap :
      (loopGo A C maxIterations 1 (initLoopState requirement)).snapshot with
  | none => rw [hsnap] at h; exact Option.noConfusion h
  | some snap =>
    rw [hsnap] at h
    simp only [Option.some.injEq] at h
    subst h
    exact ⟨snap, rfl, rfl, rfl, rfl, rfl, rfl, rfl, rfl, rfl, rfl, rfl, rfl⟩

/-- C4: every completed run makes at most `max_iterations` analyzer
calls (the loop is total by construction), appends exactly one trace
record per call — so the trace length is the analyzer call count and
never exceeds the budget — and the trace round indices are exactly
`1, 2, …`, hence strictly increasing. -/
theorem claim_C4 (A : String → List HistEntry → AnalyzerOutput)
    (C : String → List RequirementIssue → String → CorrectionOutput)
    (W : String → AnalyzerOutput → String → CodeGenerationOutput)
    (maxIterations : Nat) (requirement : String) (res : RunResult)
    (h : run A C W maxIterations requirement = some res) :
    res.analyzerCalls ≤ maxIterations ∧
    res.output.trace.length = res.analyzerCalls ∧
    res.output.trace.length ≤ maxIterations ∧
    (∀ i, (hi : i < res.output.trace.length) →
      (res.output.trace.get ⟨i, hi⟩).iteration = i + 1) ∧
    ∀ i j, (hi : i < res.output.trace.length) →
      (hj : j < res.output.trace.length) → i < j →
      (res.output.trace.get ⟨i, hi⟩).iteration <
        (res.output.trace.get ⟨j, hj⟩).iteration := by
  obtain ⟨snap, hsnap, hac, htr, _⟩ := run_elim A C W _ _ res h
  obtain ⟨k, hk, hac', es, hh, hlen, hit⟩ :=
    loopGo_spec A C maxIterations 1 (initLoopState requirement)
  have hinit : (initLoopState requirement).acalls = 0 := rfl
  have hinit2 : (initLoopState requirement).history = [] := rfl
  rw [hinit] at hac'
  rw [hinit2, List.nil_append] at hh
  have htrace : res.output.trace = es := by rw [htr, hh]
  have hacall : res.analyzerCalls = k := by rw [hac, hac']; omega
  have hidx : ∀ i, (hi : i < res.output.trace.length) →
      (res.output.trace.get ⟨i, hi⟩).iteration = i + 1 := by
    rw [htrace]
    intro i hi
    rw [hit i hi]
    omega
  refine ⟨by omega, ?_, ?_, hidx, ?_⟩
  · rw [htrace, hlen, hacall]
  · rw [htrace, hlen]; omega
  · intro i j hi hj hij
    rw [hidx i hi, hidx j hj]
    omega

set_option maxRecDepth 8000 in
/-- C4 witness: a one-round ready run within a budget of three. -/
theorem claim_C4_witness :
    ∃ res,
      run (fun _ _ => ⟨"N", [], "", "ready", "", "S"⟩)
        (fun _ _ _ => ⟨"", [], [], "", ""⟩)
        (fun r _ _ => ⟨r, "", "", [], [], 0⟩) 3 ("R") = some res ∧
      res.analyzerCalls ≤ 3 ∧
      res.output.trace.length = res.analyzerCalls ∧
      res.output.trace.length ≤ 3 ∧
      ∀ i, (hi : i < res.output.trace.length) →
        (res.output.trace.get ⟨i, hi⟩).iteration = i + 1 := by
  refine ⟨⟨⟨"R", "", "", [], [⟨1, "ready", [], "N", "", "S", none, none,
    none, none⟩], 0⟩, 1, 0, 1, [], "R", "S", none,
    ⟨"N", [], "", "ready", "", "S"⟩⟩, rfl, ?_⟩
  have h := claim_C4 (fun _ _ => ⟨"N", [], "", "ready", "", "S"⟩)
    (fun _ _ _ => ⟨"", [], [], "", ""⟩)
    (fun r _ _ => ⟨r, "", "", [], [], 0⟩) 3 ("R")
    ⟨⟨"R", "", "", [], [⟨1, "ready", [], "N", "", "S", none, none,
      none, none⟩], 0⟩, 1, 0, 1, [], "R", "S", none,
      ⟨"N", [], "", "ready", "", "S"⟩⟩ rfl
  exact ⟨h.1, h.2.1, h.2.2.1, h.2.2.2.1⟩

/-- Helper: `current_requirement` always equals the last corrector
output when one exists, and the original requirement otherwise. -/
theorem loopGo_current_inv (A : String → List HistEntry → AnalyzerOutput)
    (C : String → List RequirementIssue → String → CorrectionOutput)
    (req : String) (r : Nat) : ∀ (iter : Nat) (st : LoopState),
    (st.current = match st.lastCorrection with
      | some c => c.improvedRequirement
      | none => req) →
    ((loopGo A C r iter st).current =
      match (loopGo A C r iter st).lastCorrection with
      | some c => c.improvedRequirement
      | none => req) := by
  induction r with
  | zero => intro iter st h; simpa [loopGo] using h
  | succ r ih =>
    intro iter st h
    simp only [loopGo]
    split
    · exact h
    · split
      · exact h
      · exact ih (iter + 1) _ rfl

/-- Helper: the corrector-call counter is zero exactly when no
correction output was recorded. -/
theorem loopGo_ccount_inv (A : String → List HistEntry → AnalyzerOutput)
    (C : String → List RequirementIssue → String → CorrectionOutput)
    (r : Nat) : ∀ (iter : Nat) (st : LoopState),
    ((st.lastCorrection = none ↔ st.ccount = 0)) →
    ((loopGo A C r iter st).lastCorrection = none ↔
      (loopGo A C r iter st).ccount = 0) := by
  induction r with
  | zero => intro iter st h; simpa [loopGo] using h
  | succ r ih =>
    intro iter st h
    simp only [loopGo]
    split
    · exact h
    · split
      · exact h
      · exact ih (iter + 1) _ (by simp [loopContinueState])

/-- C5 amended: the requirement handed to the writer is the last
corrector output when at least one correction ran and that output is
non-empty, the original input requirement when no correction ever ran
and it is non-empty, and the final analyzer round's normalized
requirement when the preferred text is empty.  (The source passes
`current_requirement`, which starts as the original input — not the
analyzer's normalized text.) -/
theorem claim_C5_amended (A : String → List HistEntry → AnalyzerOutput)
    (C : String → List RequirementIssue → String → CorrectionOutput)
    (W : String → AnalyzerOutput → String → CodeGenerationOutput)
    (maxIterations : Nat) (requirement : String) (res : RunResult)
    (h : run A C W maxIterations requirement = some res) :
    (res.lastCorrection = none ↔ res.correctorCalls = 0) ∧
    res.writerReq =
      (if (match res.lastCorrection with
            | some c => c.improvedRequirement
            | none => requirement) ≠ "" then
        (match res.lastCorrection with
          | some c => c.improvedRequirement
          | none => requirement)
      else res.lastSnapshot.normalizedRequirement) := by
  obtain ⟨snap, hsnap, _, _, hcc, _, _, hreq, hlast, hsnap2, _⟩ :=
    run_elim A C W _ _ res h
  have hcur := loopGo_current_inv A C requirement maxIterations 1
    (initLoopState requirement) rfl
  have hccount := loopGo_ccount_inv A C maxIterations 1
    (initLoopState requirement) (by simp [initLoopState])
  refine ⟨by rw [hlast, hcc]; exact hccount, ?_⟩
  rw [hreq, hlast, hsnap2, hcur]

set_option maxRecDepth 8000 in
/-- C5 counterexample: a run whose single analyzer round is ready with
normalized text `"N"` never invokes the corrector, yet the writer
receives the original input `"R"`, not the last analyzer round's
normalized requirement. -/
theorem claim_C5_counterexample :
    ∃ res,
      run (fun _ _ => ⟨"N", [], "", "ready", "", "S"⟩)
        (fun _ _ _ => ⟨"", [], [], "", ""⟩)
        (fun r _ _ => ⟨r, "", "", [], [], 0⟩) 3 ("R") = some res ∧
      res.correctorCalls = 0 ∧
      res.lastSnapshot.normalizedRequirement = "N" ∧
      res.writerReq = "R" ∧ ("R" : String) ≠ "N" := by
  refine ⟨⟨⟨"R", "", "", [], [⟨1, "ready", [], "N", "", "S", none, none,
    none, none⟩], 0⟩, 1, 0, 1, [], "R", "S", none,
    ⟨"N", [], "", "ready", "", "S"⟩⟩, rfl, rfl, rfl, rfl, by decide⟩

set_option maxRecDepth 8000 in
/-- C5 amended witness: a two-round run with one correction hands the
corrector's output to the writer. -/
theorem claim_C5_amended_witness :
    ∃ res,
      run
        (fun _ hist => if hist.isEmpty then
          ⟨"N1", [⟨"ambiguity", "vague", none, "medium", []⟩], "",
            "needs_clarification", "", ""⟩
        else ⟨"N2", [], "", "ready", "", "S"⟩)
        (fun _ _ _ => ⟨"R2", ["fix"], [], "", ""⟩)
        (fun r _ _ => ⟨r, "", "", [], [], 0⟩) 3 ("R") = some res ∧
      ((res.lastCorrection = none ↔ res.correctorCalls = 0) ∧
        res.writerReq =
          (if (match res.lastCorrection with
                | some c => c.improvedRequirement
                | none => "R") ≠ "" then
            (match res.lastCorrection with
              | some c => c.improvedRequirement
              | none => "R")
          else res.lastSnapshot.normalizedRequirement)) := by
  refine ⟨⟨⟨"R2", "", "", [],
    [⟨1, "needs_clarification", [⟨"ambiguity", "vague", none, "medium", []⟩],
      "N1", "", "", some ["fix"], some [], some (""), some ("")⟩,
     ⟨2, "ready", [], "N2", "", "S", none, none, none, none⟩], 1⟩,
    2, 1, 1, [("N1", [⟨"ambiguity", "vague", none, "medium", []⟩], "")],
    "R2", "", some ⟨"R2", ["fix"], [], "", ""⟩,
    ⟨"N2", [], "", "ready", "", "S"⟩⟩, rfl, ?_⟩
  exact claim_C5_amended
    (fun _ hist => if hist.isEmpty then
      ⟨"N1", [⟨"ambiguity", "vague", none, "medium", []⟩], "",
        "needs_clarification", "", ""⟩
    else ⟨"N2", [], "", "ready", "", "S"⟩)
    (fun _ _ _ => ⟨"R2", ["fix"], [], "", ""⟩)
    (fun r _ _ => ⟨r, "", "", [], [], 0⟩) 3 ("R")
    ⟨⟨"R2", "", "", [],
      [⟨1, "needs_clarification", [⟨"ambiguity", "vague", none, "medium", []⟩],
        "N1", "", "", some ["fix"], some [], some (""), some ("")⟩,
       ⟨2, "ready", [], "N2", "", "S", none, none, none, none⟩], 1⟩,
      2, 1, 1, [("N1", [⟨"ambiguity", "vague", none, "medium", []⟩], "")],
      "R2", "", some ⟨"R2", ["fix"], [], "", ""⟩,
      ⟨"N2", [], "", "ready", "", "S"⟩⟩ rfl

/-- Helper: from the second round on, the captured signature is frozen
and every further corrector call receives it. -/
theorem loopGo_sig_frozen (A : String → List HistEntry → AnalyzerOutput)
    (C : String → List RequirementIssue → String → CorrectionOutput)
    (r : Nat) : ∀ (iter : Nat) (st : LoopState), 2 ≤ iter →
    (loopGo A C r iter st).sig = st.sig ∧
    ∀ x ∈ (loopGo A C r iter st).correctorInputs,
      x ∈ st.correctorInputs ∨ x.2.2 = st.sig := by
  induction r with
  | zero =>
    intro iter st _
    exact ⟨by simp [loopGo], fun x hx => Or.inl (by simpa [loopGo] using hx)⟩
  | succ r ih =>
    intro iter st hiter
    simp only [loopGo]
    have hsig : (if iter = 1 ∧
        (A st.current st.history).originalFunctionSignature ≠ "" then
          (A st.current st.history).originalFunctionSignature
        else st.sig) = st.sig := by
      rw [if_neg]
      rintro ⟨h1, _⟩
      omega
    rw [hsig]
    split
    · exact ⟨rfl, fun x hx => Or.inl hx⟩
    · split
      · exact ⟨rfl, fun x hx => Or.inl hx⟩
      · obtain ⟨hs, hmem⟩ := ih (iter + 1)
          (loopContinueState C st iter (A st.current st.history) st.sig)
          (by omega)
        refine ⟨hs.trans rfl, ?_⟩
        intro x hx
        rcases hmem x hx with hmem2 | hsig2
        · have : x ∈ st.correctorInputs ++
              [((A st.current st.history).normalizedRequirement,
                (A st.current st.history).issues, st.sig)] := hmem2
          rcases List.mem_append.mp this with hl | hr
          · exact Or.inl hl
          · right
            have := List.mem_singleton.mp hr
            rw [this]
        · exact Or.inr (hsig2.trans rfl)

/-- Helper: whenever the loop runs at all, the trace head is the first
round's record, and the signature handed onward — to every corrector
call and at loop exit — is the one that first round reported (captured
only at `iteration == 1`). -/
theorem loopGo_head_sig (A : String → List HistEntry → AnalyzerOutput)
    (C : String → List RequirementIssue → String → CorrectionOutput)
    (m : Nat) (req : String) :
    ∃ e rest,
      (loopGo A C (m + 1) 1 (initLoopState req)).history = e :: rest ∧
      (loopGo A C (m + 1) 1 (initLoopState req)).sig =
        e.originalFunctionSignature ∧
      ∀ x ∈ (loopGo A C (m + 1) 1 (initLoopState req)).correctorInputs,
        x.2.2 = e.originalFunctionSignature := by
  simp only [loopGo]
  set snap := A (initLoopState req).current (initLoopState req).history
    with hsnapdef
  have hif : (if True ∧ snap.originalFunctionSignature ≠ "" then
      snap.originalFunctionSignature
    else (initLoopState req).sig) = snap.originalFunctionSignature := by
    by_cases hs : snap.originalFunctionSignature = ""
    · rw [if_neg (by tauto)]
      rw [hs]
      rfl
    · rw [if_pos ⟨trivial, hs⟩]
  rw [hif]
  split
  · obtain ⟨e, he, _, hesig⟩ := loopBreakState_history (initLoopState req) 1
      snap snap.originalFunctionSignature
    refine ⟨e, [], ?_, ?_, ?_⟩
    · rw [he]
      rfl
    · rw [hesig]
      rfl
    · intro x hx
      exact absurd hx (by simp [loopBreakState, initLoopState])
  · split
    · obtain ⟨e, he, _, hesig⟩ := loopBreakState_history (initLoopState req)
        1 snap snap.originalFunctionSignature
      refine ⟨e, [], ?_, ?_, ?_⟩
      · rw [he]
        rfl
      · rw [hesig]
        rfl
      · intro x hx
        exact absurd hx (by simp [loopBreakState, initLoopState])
    · set st1 := loopContinueState C (initLoopState req) 1 snap
        snap.originalFunctionSignature with hst1
      obtain ⟨hs, hmem⟩ := loopGo_sig_frozen A C m 2 st1 le_rfl
      obtain ⟨e, he, _, hesig⟩ := loopContinueState_history C
        (initLoopState req) 1 snap snap.originalFunctionSignature
      obtain ⟨k, _, _, es, hh, _, _⟩ := loopGo_spec A C m 2 st1
      refine ⟨e, es, ?_, ?_, ?_⟩
      · rw [hh, he]
        rfl
      · rw [hs, hesig]
        rfl
      · intro x hx
        rcases hmem x hx with hmem2 | hsig2
        · have hx2 : x ∈ (initLoopState req).correctorInputs ++
              [(snap.normalizedRequirement, snap.issues,
                snap.originalFunctionSignature)] := hmem2
          have hx3 := List.mem_singleton.mp
            (by simpa [initLoopState] using hx2)
          rw [hx3, hesig]
        · rw [hsig2, hesig]
          rfl

/-- C6 amended: the signature passed to every corrector call and to the
writer is exactly the one reported by the first analyzer round (the
trace head); it is captured only at iteration 1, so when the first
round reports an empty signature it stays empty for the whole run even
if a later round reports one, and once captured it is never replaced. -/
theorem claim_C6_amended (A : String → List HistEntry → AnalyzerOutput)
    (C : String → List RequirementIssue → String → CorrectionOutput)
    (W : String → AnalyzerOutput → String → CodeGenerationOutput)
    (maxIterations : Nat) (requirement : String) (res : RunResult)
    (h : run A C W maxIterations requirement = some res) :
    ∃ e rest, res.output.trace = e :: rest ∧
      res.writerSig = e.originalFunctionSignature ∧
      ∀ x ∈ res.correctorInputs, x.2.2 = e.originalFunctionSignature := by
  obtain ⟨snap, hsnap, _, htr, _, hci, hsig, _⟩ :=
    run_elim A C W _ _ res h
  cases maxIterations with
  | zero =>
    rw [show loopGo A C 0 1 (initLoopState requirement) =
      initLoopState requirement from rfl] at hsnap
    exact absurd hsnap (by simp [initLoopState])
  | succ m =>
    obtain ⟨e, rest, hh, hs, hmem⟩ := loopGo_head_sig A C m requirement
    exact ⟨e, rest, by rw [htr, hh], by rw [hsig, hs], fun x hx =>
      hmem x (by rw [← hci]; exact hx)⟩

set_option maxRecDepth 8000 in
/-- C6 counterexample: in a run whose first analyzer round reports an
empty signature and whose second round reports `"S"`, the first round
returning a non-empty signature is round two — yet the round-two
corrector call and the writer both receive `""`, because the source
captures the signature only when `iteration == 1`. -/
theorem claim_C6_counterexample :
    ∃ res,
      run
        (fun _ hist => if hist.isEmpty then
          ⟨"N1", [⟨"ambiguity", "vague", none, "medium", []⟩], "",
            "needs_clarification", "", ""⟩
        else ⟨"N2", [⟨"ambiguity", "vague2", none, "medium", []⟩], "",
          "needs_clarification", "", "S"⟩)
        (fun r _ _ => ⟨r, ["fix"], [], "", ""⟩)
        (fun r _ _ => ⟨r, "", "", [], [], 0⟩) 2 ("R") = some res ∧
      res.output.trace.map (fun e => e.originalFunctionSignature) =
        ["", "S"] ∧
      res.correctorInputs.map (fun x => x.2.2) = ["", ""] ∧
      res.writerSig = "" ∧ ("S" : String) ≠ "" := by
  refine ⟨_, rfl, by rfl, by rfl, by rfl, by decide⟩

set_option maxRecDepth 8000 in
/-- C6 amended witness: the same two-round run, with the signature of
every corrector call and of the writer equal to the trace head's. -/
theorem claim_C6_amended_witness :
    ∃ e rest,
      (⟨⟨"N2", "", "", [],
        [⟨1, "needs_clarification",
          [⟨"ambiguity", "vague", none, "medium", []⟩], "N1", "", "",
          some ["fix"], some [], some (""), some ("")⟩,
         ⟨2, "needs_clarification",
          [⟨"ambiguity", "vague2", none, "medium", []⟩], "N2", "", "S",
          some ["fix"], some [], some (""), some ("")⟩], 2⟩,
        2, 2, 1,
        [("N1", [⟨"ambiguity", "vague", none, "medium", []⟩], ""),
         ("N2", [⟨"ambiguity", "vague2", none, "medium", []⟩], "")],
        "N2", "", some ⟨"N2", ["fix"], [], "", ""⟩,
        ⟨"N2", [⟨"ambiguity", "vague2", none, "medium", []⟩], "",
          "needs_clarification", "", "S"⟩⟩ : RunResult).output.trace =
        e :: rest ∧
      (⟨⟨"N2", "", "", [],
        [⟨1, "needs_clarification",
          [⟨"ambiguity", "vague", none, "medium", []⟩], "N1", "", "",
          some ["fix"], some [], some (""), some ("")⟩,
         ⟨2, "needs_clarification",
          [⟨"ambiguity", "vague2", none, "medium", []⟩], "N2", "", "S",
          some ["fix"], some [], some (""), some ("")⟩], 2⟩,
        2, 2, 1,
        [("N1", [⟨"ambiguity", "vague", none, "medium", []⟩], ""),
         ("N2", [⟨"ambiguity", "vague2", none, "medium", []⟩], "")],
        "N2", "", some ⟨"N2", ["fix"], [], "", ""⟩,
        ⟨"N2", [⟨"ambiguity", "vague2", none, "medium", []⟩], "",
          "needs_clarification", "", "S"⟩⟩ : RunResult).writerSig =
        e.originalFunctionSignature := by
  obtain ⟨e, rest, h1, h2, _⟩ := claim_C6_amended
    (fun _ hist => if hist.isEmpty then
      ⟨"N1", [⟨"ambiguity", "vague", none, "medium", []⟩], "",
        "needs_clarification", "", ""⟩
    else ⟨"N2", [⟨"ambiguity", "vague2", none, "medium", []⟩], "",
      "needs_clarification", "", "S"⟩)
    (fun r _ _ => ⟨r, ["fix"], [], "", ""⟩)
    (fun r _ _ => ⟨r, "", "", [], [], 0⟩) 2 ("R")
    ⟨⟨"N2", "", "", [],
      [⟨1, "needs_clarification",
        [⟨"ambiguity", "vague", none, "medium", []⟩], "N1", "", "",
        some ["fix"], some [], some (""), some ("")⟩,
       ⟨2, "needs_clarification",
        [⟨"ambiguity", "vague2", none, "medium", []⟩], "N2", "", "S",
        some ["fix"], some [], some (""), some ("")⟩], 2⟩,
      2, 2, 1,
      [("N1", [⟨"ambiguity", "vague", none, "medium", []⟩], ""),
       ("N2", [⟨"ambiguity", "vague2", none, "medium", []⟩], "")],
      "N2", "", some ⟨"N2", ["fix"], [], "", ""⟩,
      ⟨"N2", [⟨"ambiguity", "vague2", none, "medium", []⟩], "",
        "needs_clarification", "", "S"⟩⟩ rfl
  exact ⟨e, rest, h1, h2⟩

/-- C9: when every extraction method fails on the writer backend's
response, the writer's output carries empty code and the single
diagnostic note, and the orchestrator returns it as a normal completed
result from its one writer call — no retry, no exception. -/
theorem claim_C9 (A : String → List HistEntry → AnalyzerOutput)
    (C : String → List RequirementIssue → String → CorrectionOutput)
    (backendW : String → String → String) (maxIterations : Nat)
    (requirement : String) (res : RunResult)
    (hfail : ∀ a b, (extractCodeMultilayer (backendW a b)).1 = "")
    (h : run A C (writerRole backendW) maxIterations requirement =
      some res) :
    res.output.code = "" ∧
    res.output.assumptions = ["Failed to extract code from response"] ∧
    res.writerCalls = 1 := by
  obtain ⟨snap, _, _, _, _, _, _, _, _, _, hwc, hcode, hassum⟩ :=
    run_elim A C (writerRole backendW) _ _ res h
  have hW : (writerRole backendW res.writerReq snap res.writerSig).code =
        "" ∧
      (writerRole backendW res.writerReq snap res.writerSig).assumptions =
        ["Failed to extract code from response"] := by
    simp [writerRole, writerParseResponse, hfail]
  exact ⟨hcode.trans hW.1, hassum.trans hW.2, hwc⟩

set_option maxRecDepth 8000 in
/-- C9 witness: a backend reply with no fences, no tags, no JSON and no
definition-like lines. -/
theorem claim_C9_witness :
    ∃ res,
      run (fun _ _ => ⟨"N", [], "", "ready", "", "S"⟩)
        (fun _ _ _ => ⟨"", [], [], "", ""⟩)
        (writerRole (fun _ _ => "no code here")) 3 ("R") = some res ∧
      res.output.code = "" ∧
      res.output.assumptions = ["Failed to extract code from response"] ∧
      res.writerCalls = 1 := by
  refine ⟨⟨⟨"R", "", "", ["Failed to extract code from response"],
    [⟨1, "ready", [], "N", "", "S", none, none, none, none⟩], 0⟩,
    1, 0, 1, [], "R", "S", none, ⟨"N", [], "", "ready", "", "S"⟩⟩,
    rfl, ?_⟩
  exact claim_C9 (fun _ _ => ⟨"N", [], "", "ready", "", "S"⟩)
    (fun _ _ _ => ⟨"", [], [], "", ""⟩)
    (fun _ _ => "no code here") 3 ("R")
    ⟨⟨"R", "", "", ["Failed to extract code from response"],
      [⟨1, "ready", [], "N", "", "S", none, none, none, none⟩], 0⟩,
      1, 0, 1, [], "R", "S", none, ⟨"N", [], "", "ready", "", "S"⟩⟩
    (fun _ _ => rfl) rfl

/-- Helper: the writer validator rejects whenever both sides parse,
the counts agree, and some position has declared types that differ
after space removal. -/
theorem writerValidateSig_fails (a b : String) (na nb : String)
    (pa pb : List Param)
    (ha : extractSig a = some (na, pa)) (hb : extractSig b = some (nb, pb))
    (hlen : pa.length = pb.length) (k : Nat) (p q : Param)
    (hp : pa.get? k = some p) (hq : pb.get? k = some q)
    (htp : optStrTruthy p.2 = true) (htq : optStrTruthy q.2 = true)
    (hne : normType (p.2.getD ("")) ≠ normType (q.2.getD (""))) :
    (writerValidateSig a b).1 = false := by
  simp only [writerValidateSig, ha, hb]
  rw [if_neg (by omega)]
  have hs := firstTypeMismatch_isSome pa pb 0 k p q hp hq htp htq hne
  cases hm : firstTypeMismatch pa pb 0 with
  | none => rw [hm] at hs; simp at hs
  | some m =>
    obtain ⟨i, ot, it⟩ := m
    rfl

/-- Helper: the header-rewrite substitution acts exactly at the first
position where its pattern matches. -/
theorem subFirstDef_at (name repl : List Char) :
    ∀ (cs : List Char) (i L : Nat),
    (∀ j, j < i → defSubMatchLenAt name (cs.drop j) = none) →
    defSubMatchLenAt name (cs.drop i) = some L →
    subFirstDef name repl cs = cs.take i ++ repl ++ cs.drop (i + L) := by
  intro cs
  induction cs with
  | nil =>
    intro i L _ hL
    rw [List.drop_nil] at hL
    exact absurd hL (by simp [defSubMatchLenAt])
  | cons c rest ih =>
    intro i L h0 hL
    cases i with
    | zero =>
      rw [List.drop_zero] at hL
      simp only [subFirstDef]
      rw [hL]
      simp
    | succ i =>
      have hc : defSubMatchLenAt name (c :: rest) = none := by
        have := h0 0 (by omega)
        rwa [List.drop_zero] at this
      simp only [subFirstDef]
      rw [hc]
      have hstep : subFirstDef name repl rest =
          rest.take i ++ repl ++ rest.drop (i + L) :=
        ih i L (fun j hj => h0 (j + 1) (by omega)) hL
      rw [hstep, show i + 1 + L = (i + L) + 1 from by omega]
      rfl

/-- Helper: the call-site rename never turns non-empty text into empty
text (the replacement itself is non-empty). -/
theorem renameCalls_ne_nil (name new : List Char) (c : Char)
    (rest : List Char) : renameCalls name new (c :: rest) ≠ [] := by
  show renameCallsGo name (new ++ ['(']) (rest.length + 1) none (c :: rest)
    ≠ []
  simp only [renameCallsGo]
  cases hm : callMatchLenAt name none (c :: rest) with
  | some len => simp
  | none => simp

/-- Helper: the rebuilt header is never the empty string. -/
theorem mkNewDef_data_ne_nil (reqName : String)
    (reqParams codeParams : List Param) (requirement : String) :
    (mkNewDef reqName reqParams codeParams requirement).data ≠ [] := by
  unfold mkNewDef
  cases findRetType requirement.data with
  | none => simp [String.data_append]
  | some rt =>
    by_cases h : rt ≠ "" <;> simp [h, String.data_append]

set_option maxRecDepth 8000 in
/-- C3 counterexample: extraction succeeds, both sides parse, counts
match and the declared types differ, yet the returned code's header
still carries the code's type `str`, not the requirement's `int`: the
auto-repair's `re.sub` pattern requires a colon-terminated header, the
extracted code `def f(x: str)` has none, so the substitution silently
leaves the code unchanged. -/
theorem claim_C3_counterexample :
    (extractCodeMultilayer ("```python\ndef f(x: str)\n```")).1 =
      "def f(x: str)" ∧
    extractSig ("def f(x: int):") = some ("f", [("x", some ("int"))]) ∧
    extractSig ("def f(x: str)") = some ("f", [("x", some ("str"))]) ∧
    normType ("int") ≠ normType ("str") ∧
    (writerParseResponse ("```python\ndef f(x: str)\n```")
      ("def f(x: int):")).code = "def f(x: str)" ∧
    extractSig ((writerParseResponse ("```python\ndef f(x: str)\n```")
      ("def f(x: int):")).code) = some ("f", [("x", some ("str"))]) :=
  ⟨rfl, rfl, rfl, by decide, rfl, rfl⟩

/-- C3 amended: under the claim's hypotheses, and provided additionally
that the rewrite pattern `def <name>(...)...:` matches the code at its
first `def` header (the header is colon-terminated) and nowhere
earlier, the returned code is the extracted code with that header
replaced by the rebuilt one — code parameter names annotated with the
requirement's declared type where one is present (falling back to the
code's own), return type from the requirement's trailing arrow — with
call sites renamed when the names differ and the requirement's name is
not `candidate`.  Without the colon hypothesis the substitution is a
no-op and the header keeps the code's types. -/
theorem claim_C3_amended (response requirement code0 method : String)
    (hx : extractCodeMultilayer response = (code0, method))
    (hne : code0 ≠ "")
    (reqName : String) (reqParams : List Param)
    (hreq : extractSig requirement = some (reqName, reqParams))
    (i0 : Nat) (codeName : String) (psRaw : List Char)
    (hfind : findDefL code0.data = some (i0, codeName, psRaw))
    (hlen : reqParams.length = (parseParams psRaw).length)
    (k : Nat) (p q : Param)
    (hp : reqParams.get? k = some p)
    (hq : (parseParams psRaw).get? k = some q)
    (htp : optStrTruthy p.2 = true) (htq : optStrTruthy q.2 = true)
    (hne2 : normType (p.2.getD ("")) ≠ normType (q.2.getD ("")))
    (L : Nat)
    (hpat : defSubMatchLenAt codeName.data (code0.data.drop i0) = some L)
    (hnopat : ∀ j, j < i0 →
      defSubMatchLenAt codeName.data (code0.data.drop j) = none) :
    (writerParseResponse response requirement).code =
      String.mk ((if reqName ≠ codeName ∧ reqName ≠ "candidate" then
          renameCalls codeName.data reqName.data
        else id)
        (code0.data.take i0 ++
          (mkNewDef reqName reqParams (parseParams psRaw)
            requirement).data ++
          code0.data.drop (i0 + L))) ∧
    ∀ k2 rp cp, reqParams.get? k2 = some rp →
      (parseParams psRaw).get? k2 = some cp →
      optStrTruthy rp.2 = true →
      fixedParamStr rp cp = cp.1 ++ ": " ++ rp.2.getD ("") := by
  have hcodeSig : extractSig code0 = some (codeName, parseParams psRaw) := by
    simp [extractSig, hfind]
  have hval : (writerValidateSig requirement code0).1 = false :=
    writerValidateSig_fails requirement code0 reqName codeName reqParams
      (parseParams psRaw) hreq hcodeSig hlen k p q hp hq htp htq hne2
  have hsub : subFirstDef codeName.data
      (mkNewDef reqName reqParams (parseParams psRaw) requirement).data
      code0.data =
      code0.data.take i0 ++
        (mkNewDef reqName reqParams (parseParams psRaw) requirement).data ++
        code0.data.drop (i0 + L) :=
    subFirstDef_at codeName.data _ code0.data i0 L hnopat hpat
  have hfix : fixSignatureInCode requirement code0 =
      some (String.mk ((if reqName ≠ codeName ∧ reqName ≠ "candidate" then
          renameCalls codeName.data reqName.data
        else id)
        (code0.data.take i0 ++
          (mkNewDef reqName reqParams (parseParams psRaw)
            requirement).data ++
          code0.data.drop (i0 + L)))) := by
    simp only [fixSignatureInCode, hreq, hcodeSig]
    rw [if_neg (by omega)]
    rw [hsub]
    by_cases hnm : reqName ≠ codeName ∧ reqName ≠ "candidate"
    · rw [if_pos hnm, if_pos hnm]
    · rw [if_neg hnm, if_neg hnm]
      rfl
  have hmkne : (mkNewDef reqName reqParams (parseParams psRaw)
      requirement).data ≠ [] :=
    mkNewDef_data_ne_nil reqName reqParams (parseParams psRaw) requirement
  have hresne : ((if reqName ≠ codeName ∧ reqName ≠ "candidate" then
      renameCalls codeName.data reqName.data
    else id)
    (code0.data.take i0 ++
      (mkNewDef reqName reqParams (parseParams psRaw) requirement).data ++
      code0.data.drop (i0 + L))) ≠ [] := by
    have hbase : (code0.data.take i0 ++
        (mkNewDef reqName reqParams (parseParams psRaw) requirement).data ++
        code0.data.drop (i0 + L)) ≠ [] := by
      intro hcon
      rcases List.append_eq_nil.mp hcon with ⟨h1, _⟩
      exact hmkne (List.append_eq_nil.mp h1).2
    by_cases hnm : reqName ≠ codeName ∧ reqName ≠ "candidate"
    · rw [if_pos hnm]
      cases hbb : (code0.data.take i0 ++
          (mkNewDef reqName reqParams (parseParams psRaw)
            requirement).data ++
          code0.data.drop (i0 + L)) with
      | nil => exact absurd hbb hbase
      | cons c rest =>
        exact renameCalls_ne_nil codeName.data reqName.data c rest
    · rw [if_neg hnm]
      exact hbase
  refine ⟨?_, ?_⟩
  · simp only [writerParseResponse, hx]
    rw [if_pos hne, hval]
    simp only [Bool.false_eq_true, if_false]
    rw [hfix]
    set F := String.mk ((if reqName ≠ codeName ∧ reqName ≠ "candidate" then
        renameCalls codeName.data reqName.data
      else id)
      (code0.data.take i0 ++
        (mkNewDef reqName reqParams (parseParams psRaw) requirement).data ++
        code0.data.drop (i0 + L))) with hF
    have hFne : F ≠ "" := by
      rw [hF]
      intro hcon
      exact hresne (congrArg String.data hcon)
    show (if F ≠ "" then F else code0) = F
    rw [if_pos hFne]
  · intro k2 rp cp _ _ htrp
    unfold fixedParamStr
    cases hrp : rp.2 with
    | none => rw [hrp] at htrp; simp [optStrTruthy] at htrp
    | some t =>
      rw [hrp] at htrp
      have ht : t ≠ "" := by simpa [optStrTruthy] using htrp
      have : pyOrStr (some t) cp.2 = some t := by
        simp [pyOrStr, optStrTruthy, ht]
      rw [this]
      simp [ht]

set_option maxRecDepth 8000 in
/-- C3 amended witness: a colon-terminated header is rewritten to the
requirement's name, declared parameter type and arrow return type, with
the call site renamed. -/
theorem claim_C3_amended_witness :
    (writerParseResponse ("```python\ndef f(x: str):\n    return f(1)\n```")
      ("def g(x: int) -> int:")).code =
      "def g(x: int) -> int:\n    return g(1)" ∧
    fixedParamStr ("x", some ("int")) ("x", some ("str")) = "x: int" := by
  have h := claim_C3_amended
    ("```python\ndef f(x: str):\n    return f(1)\n```")
    ("def g(x: int) -> int:")
    ("def f(x: str):\n    return f(1)") ("markdown_python")
    rfl (by decide) ("g") ([("x", some ("int"))]) rfl
    0 ("f") (("x: str").data) rfl rfl
    0 (("x", some ("int"))) (("x", some ("str"))) rfl rfl rfl rfl
    (by decide) 14 rfl (fun j hj => absurd hj (Nat.not_lt_zero j))
  refine ⟨h.1.trans (by rfl), ?_⟩
  exact h.2 0 (("x", some ("int"))) (("x", some ("str"))) rfl rfl rfl

end RefineCoder
